import Mathlib

/-
Verification of the cart-state reconciliation and broadcast pipeline of the
cartlens-app repository.

The definitions below are a shallow embedding of the TypeScript source:
  - app/routes/webhooks.carts.tsx      (cart snapshot differencer + handler)
  - app/routes/webhooks.checkouts.tsx  (checkout correlation handler)
  - app/routes/webhooks.orders.tsx     (order correlation handler)
  - app/routes/api endpoint for pixel events (src/unnamed/part_005)
  - app/services/sse.server.ts         (SSE broadcast hub)
  - prisma migration 20260223000000_checkout_started_unique (partial unique index)

Modelling conventions:
  - Monetary amounts and quantities are integers with exact arithmetic
    (the source uses JS numbers; no claim here concerns float rounding).
  - JS `Map` objects are association lists with insert-or-update-in-place
    semantics (`mset`), preserving insertion order, as `Map` does.
  - JS `x || y` on possibly-absent strings is `Option.orElse`; ids are
    assumed non-empty so string falsiness coincides with absence.
  - The event store of the repository is an external ACID collaborator; it is
    modelled as lists inside a `Store` structure, with the partial unique
    index on (sessionId, eventType = checkout_started) enforced by
    `insertEvent` returning an error exactly when the index would reject.
  - Wall-clock timestamps are explicit `Nat` parameters; `updatedAt`
    bookkeeping is not part of the logical state.
  - External enrichment I/O (product-image origin lookup, geo headers, rate
    limiting, user-agent parsing, bot heuristics) is outside the modelled
    slice: the spec treats these as external collaborators and no claim
    depends on them; image fields carry only the webhook-provided value.
-/

namespace Cartlens

/-- Event kinds stored in the CartEvent log (data model section of the spec). -/
inductive EventType where
  | cart_add
  | cart_remove
  | checkout_started
  | checkout_item
  | checkout_abandoned
  | checkout_completed
  | page_view
deriving DecidableEq, Repr

/-- One immutable row of the CartEvent table. -/
structure CartEvent where
  sessionId : Nat
  eventType : EventType
  productId : Option String := none
  productTitle : Option String := none
  variantId : Option String := none
  variantTitle : Option String := none
  variantImage : Option String := none
  quantity : Option Int := none
  price : Option Int := none
  timestamp : Nat := 0
deriving DecidableEq, Repr

/-- One row of the CartSession table (fields touched by the modelled handlers). -/
structure CartSession where
  id : Nat
  shopId : String
  visitorId : String
  customerId : Option String := none
  customerEmail : Option String := none
  customerName : Option String := none
  cartCreated : Bool := false
  checkoutStarted : Bool := false
  checkoutAbandoned : Bool := false
  orderPlaced : Bool := false
  cartTotal : Int := 0
  itemCount : Int := 0
  orderId : Option String := none
  orderNumber : Option String := none
  orderValue : Int := 0
  discountCodes : Option (List String) := none
  city : Option String := none
  country : Option String := none
  countryCode : Option String := none
  createdAt : Nat := 0
deriving DecidableEq, Repr

/-- One row of the Shop table. -/
structure Shop where
  id : String
  shopifyDomain : String
  botFilterEnabled : Bool := false
deriving DecidableEq, Repr

/-- A line item of a cart webhook payload
(token, product_id, variant_id, title, variant_title, quantity, price, image). -/
structure CartLineItem where
  product_id : Option String := none
  variant_id : Option String := none
  title : Option String := none
  variant_title : Option String := none
  quantity : Int := 0
  price : Option Int := none
  image : Option String := none
deriving DecidableEq, Repr

/-- A message published to the broadcast hub
(`sseManager.broadcast(shopRecord.id, "cart-update", ...)`). -/
structure Broadcast where
  shopId : String
  event : String
  sessionId : Nat
deriving DecidableEq, Repr

/-- The HTTP response a webhook handler produces:
`data({success:true})` or `data({error}, {status})`.  An exception escaping a
handler with no try/catch is rendered by the framework as a 500 error
response, modelled as `err 500`. -/
inductive Response where
  | success
  | err (status : Nat)
deriving DecidableEq, Repr

/- ===== JS Map as an association list ===== -/

/-- Lookup in a JS `Map` (first entry with the key; keys are unique anyway). -/
def mget {α : Type} : List (String × α) → String → Option α
  | [], _ => none
  | (k', v) :: rest, k => if k' = k then some v else mget rest k

/-- JS `Map.set`: update the entry in place if the key exists, else append. -/
def mset {α : Type} : List (String × α) → String → α → List (String × α)
  | [], k, v => [(k, v)]
  | (k', v') :: rest, k, v =>
      if k' = k then (k, v) :: rest else (k', v') :: mset rest k v

/-- Integer value a key maps to, defaulting to 0 (`map.get(k) || 0`). -/
def mval (m : List (String × Int)) (k : String) : Int :=
  (mget m k).getD 0

@[simp]
theorem mget_nil {α : Type} (k : String) : mget ([] : List (String × α)) k = none := rfl

theorem mget_mset_self {α : Type} (m : List (String × α)) (k : String) (v : α) :
    mget (mset m k v) k = some v := by
  induction m with
  | nil => simp [mget, mset]
  | cons p rest ih =>
      obtain ⟨k', v'⟩ := p
      by_cases h : k' = k
      · simp [mset, mget, h]
      · simp [mset, mget, h, ih]

theorem mget_mset_ne {α : Type} (m : List (String × α)) (k k' : String) (v : α)
    (h : k' ≠ k) : mget (mset m k v) k' = mget m k' := by
  have hkk : k ≠ k' := Ne.symm h
  induction m with
  | nil => simp [mget, mset, hkk]
  | cons p rest ih =>
      obtain ⟨k₀, v₀⟩ := p
      by_cases h₀ : k₀ = k
      · subst h₀
        simp [mset, mget, hkk]
      · simp [mset, mget, h₀, ih]

/-- Keys of an association list. -/
def mkeys {α : Type} (m : List (String × α)) : List String :=
  m.map Prod.fst

theorem mkeys_mset {α : Type} (m : List (String × α)) (k : String) (v : α) :
    mkeys (mset m k v) = if (mget m k).isSome then mkeys m else mkeys m ++ [k] := by
  induction m with
  | nil => simp [mset, mkeys, mget]
  | cons p rest ih =>
      obtain ⟨k₀, v₀⟩ := p
      by_cases h₀ : k₀ = k
      · subst h₀
        simp [mset, mget, mkeys]
      · rw [show mset ((k₀, v₀) :: rest) k v = (k₀, v₀) :: mset rest k v by simp [mset, h₀]]
        rw [show mget ((k₀, v₀) :: rest) k = mget rest k by simp [mget, h₀]]
        simp only [mkeys, List.map_cons]
        rw [show List.map Prod.fst (mset rest k v) = mkeys (mset rest k v) from rfl, ih]
        by_cases hs : (mget rest k).isSome <;> simp [hs, mkeys]

theorem mget_eq_none_of_not_mem_mkeys {α : Type} (m : List (String × α)) (k : String)
    (h : k ∉ mkeys m) : mget m k = none := by
  induction m with
  | nil => rfl
  | cons p rest ih =>
      obtain ⟨k₀, v₀⟩ := p
      simp only [mkeys, List.map_cons, List.mem_cons, not_or] at h
      have h₀ : k₀ ≠ k := Ne.symm h.1
      simp [mget, h₀, ih (by simpa [mkeys] using h.2)]

theorem mem_mkeys_of_mget_isSome {α : Type} (m : List (String × α)) (k : String)
    (h : (mget m k).isSome) : k ∈ mkeys m := by
  by_contra hc
  rw [mget_eq_none_of_not_mem_mkeys m k hc] at h
  simp at h

theorem mget_isSome_of_mem_mkeys {α : Type} (m : List (String × α)) (k : String)
    (h : k ∈ mkeys m) : (mget m k).isSome := by
  induction m with
  | nil => simp [mkeys] at h
  | cons p rest ih =>
      obtain ⟨k₀, v₀⟩ := p
      by_cases h₀ : k₀ = k
      · simp [mget, h₀]
      · simp only [mkeys, List.map_cons, List.mem_cons] at h
        rcases h with h | h
        · exact absurd h.symm h₀
        · simpa [mget, h₀] using ih (by simpa [mkeys] using h)

theorem nodup_mkeys_mset {α : Type} (m : List (String × α)) (k : String) (v : α)
    (h : (mkeys m).Nodup) : (mkeys (mset m k v)).Nodup := by
  rw [mkeys_mset]
  by_cases hs : (mget m k).isSome
  · simpa [hs] using h
  · have hk : k ∉ mkeys m := fun hmem => hs (mget_isSome_of_mem_mkeys m k hmem)
    simp [hs, List.nodup_append, h, hk]

theorem mget_of_mem_nodup {α : Type} (m : List (String × α)) (k : String) (v : α)
    (hnd : (mkeys m).Nodup) (hmem : (k, v) ∈ m) : mget m k = some v := by
  induction m with
  | nil => simp at hmem
  | cons p rest ih =>
      obtain ⟨k₀, v₀⟩ := p
      simp only [mkeys, List.map_cons, List.nodup_cons] at hnd
      rcases List.mem_cons.mp hmem with h | h
      · injection h with h1 h2
        subst h1
        subst h2
        simp [mget]
      · have hk₀ : k₀ ≠ k := by
          intro hh
          subst hh
          exact hnd.1 (List.mem_map_of_mem Prod.fst h)
        simpa [mget, hk₀] using ih (by simpa [mkeys] using hnd.2) h

/- ===== Snapshot differencer (webhooks.carts.tsx, CARTS_UPDATE branch) ===== -/

/-- Grouping key of a payload line item:
`item.variant_id?.toString() || item.product_id?.toString() || "unknown"`. -/
def itemKey (it : CartLineItem) : String :=
  it.variant_id.getD (it.product_id.getD "unknown")

/-- Grouping key of a logged event: `event.variantId || event.productId || "unknown"`. -/
def eventKey (e : CartEvent) : String :=
  e.variantId.getD (e.productId.getD "unknown")

/-- One step of reconstructing the believed cart state from the event log
(webhooks.carts.tsx lines 126-133): `cart_add` adds the quantity at the
event's key, `cart_remove` subtracts it, other kinds are ignored. -/
def stepEvent (m : List (String × Int)) (e : CartEvent) : List (String × Int) :=
  if e.eventType = .cart_add then
    mset m (eventKey e) (mval m (eventKey e) + e.quantity.getD 0)
  else if e.eventType = .cart_remove then
    mset m (eventKey e) (mval m (eventKey e) - e.quantity.getD 0)
  else m

/-- The `currentState` map: believed quantity per key, replayed from the log. -/
def buildCurrentState (events : List CartEvent) : List (String × Int) :=
  events.foldl stepEvent []

/-- The `newState` map built from the webhook payload (lines 136-140):
key ↦ the line item (its quantity is read off the item). -/
def buildNewState (items : List CartLineItem) : List (String × CartLineItem) :=
  items.foldl (fun m it => mset m (itemKey it) it) []

/-- The quantity the new snapshot holds at a key:
`newState.get(key)?.quantity || 0`. -/
def newQtyOf (new : List (String × CartLineItem)) (k : String) : Int :=
  ((mget new k).map CartLineItem.quantity).getD 0

/-- An element of the `additions` array (lines 143-145). -/
structure Addition where
  key : String
  quantity : Int
  item : CartLineItem
  oldQty : Int
deriving DecidableEq, Repr

/-- Detected additions: entries of `newState` whose snapshot quantity exceeds
the believed quantity (lines 143-145). -/
def additionsOf (cur : List (String × Int)) (new : List (String × CartLineItem)) :
    List Addition :=
  (new.map (fun p => Addition.mk p.1 p.2.quantity p.2 (mval cur p.1))).filter
    (fun a => a.oldQty < a.quantity)

/-- The `lastAdd` lookup used when emitting a removal (lines 179-181): the first
`cart_add` event in the loaded history whose variantId or productId equals the
key; its identity fields are carried onto the remove event for display. -/
def lastAddFor (lastEvents : List CartEvent) (key : String) : Option CartEvent :=
  lastEvents.find? (fun e =>
    (e.variantId == some key || e.productId == some key) && e.eventType == .cart_add)

/-- An element of the `removals` array (lines 172-183). -/
structure Removal where
  key : String
  removedQty : Int
  lastAdd : Option CartEvent
deriving DecidableEq, Repr

/-- Detected removals: entries of `currentState` with positive believed quantity
whose snapshot quantity dropped below it (lines 172-183). -/
def removalsOf (cur : List (String × Int)) (new : List (String × CartLineItem))
    (lastEvents : List CartEvent) : List Removal :=
  (cur.filter (fun p => decide (0 < p.2) && decide (newQtyOf new p.1 < p.2))).map
    (fun p => Removal.mk p.1 (p.2 - newQtyOf new p.1) (lastAddFor lastEvents p.1))

/-- The `cart_add` event row created for a detected addition (lines 153-168);
the quantity stored is the delta `quantity - oldQty`, never the absolute
snapshot quantity.  The image is the webhook-provided one (origin lookup is
external I/O, see header). -/
def additionEvent (sid : Nat) (ts : Nat) (a : Addition) : CartEvent :=
  { sessionId := sid
    eventType := .cart_add
    productId := a.item.product_id
    productTitle := a.item.title
    variantId := a.item.variant_id
    variantTitle := a.item.variant_title
    variantImage := a.item.image
    quantity := some (a.quantity - a.oldQty)
    price := a.item.price
    timestamp := ts }

/-- The `cart_remove` event row created for a detected removal (lines 185-200);
identity fields fall back from the matched `lastAdd` to the key itself, and
the quantity stored is the delta `removedQty`. -/
def removalEvent (sid : Nat) (ts : Nat) (r : Removal) : CartEvent :=
  { sessionId := sid
    eventType := .cart_remove
    productId := some ((r.lastAdd.bind CartEvent.productId).getD r.key)
    productTitle := some ((r.lastAdd.bind CartEvent.productTitle).getD "Unknown Product")
    variantId := some ((r.lastAdd.bind CartEvent.variantId).getD r.key)
    variantTitle := r.lastAdd.bind CartEvent.variantTitle
    quantity := some r.removedQty
    price := some ((r.lastAdd.bind CartEvent.price).getD 0)
    timestamp := ts }

/-- All events emitted by one run of the CARTS_UPDATE diffing branch
(lines 118-200) against the session's loaded event history. -/
def diffEvents (sid : Nat) (ts : Nat) (lastEvents : List CartEvent)
    (items : List CartLineItem) : List CartEvent :=
  let cur := buildCurrentState lastEvents
  let new := buildNewState items
  (additionsOf cur new).map (additionEvent sid ts)
    ++ (removalsOf cur new lastEvents).map (removalEvent sid ts)

/-- Cart total and item count computed directly from the webhook payload
(webhooks.carts.tsx lines 64-70):
`cartTotal += price * quantity; itemCount += quantity` over the line items. -/
def payloadTotals (items : List CartLineItem) : Int × Int :=
  items.foldl (fun acc it => (acc.1 + it.price.getD 0 * it.quantity, acc.2 + it.quantity))
    (0, 0)

/- ===== The event store (external ACID collaborator) ===== -/

/-- Durable state: Shop, CartSession and CartEvent tables, plus the platform
Session table (installed shop domains) consulted by the pixel endpoint. -/
structure Store where
  shops : List Shop := []
  sessions : List CartSession := []
  events : List CartEvent := []
  platformSessions : List String := []
deriving DecidableEq, Repr

/-- The partial unique index of migration 20260223000000: an insert is rejected
exactly when it is a `checkout_started` event for a session that already has
one (`CREATE UNIQUE INDEX ... ON "CartEvent"("sessionId") WHERE "eventType" =
'checkout_started'`). -/
def violatesCheckoutStartedIndex (events : List CartEvent) (e : CartEvent) : Bool :=
  e.eventType == .checkout_started &&
    events.any (fun e' => e'.sessionId == e.sessionId && e'.eventType == .checkout_started)

/-- An atomic `cartEvent.create`: errors when the partial unique index rejects
the row, otherwise appends it. -/
def insertEvent (st : Store) (e : CartEvent) : Except Unit Store :=
  if violatesCheckoutStartedIndex st.events e then .error ()
  else .ok { st with events := st.events ++ [e] }

/-- Append event rows whose kind the partial index does not guard
(`cart_add`, `cart_remove`, `checkout_item`, ... creates never fail). -/
def appendEvents (st : Store) (es : List CartEvent) : Store :=
  { st with events := st.events ++ es }

/-- A `cartSession.update` keyed by primary id. -/
def putSession (st : Store) (u : CartSession) : Store :=
  { st with sessions := st.sessions.map (fun t => if t.id = u.id then u else t) }

/-- A `cartSession.create`. -/
def addSession (st : Store) (s : CartSession) : Store :=
  { st with sessions := st.sessions ++ [s] }

/-- A fresh primary id for a created session (strictly above every existing id). -/
def freshSessionId (st : Store) : Nat :=
  (st.sessions.map CartSession.id).foldr max 0 + 1

/-- The `shop.findUnique({where: {shopifyDomain}})` lookup. -/
def findShop (st : Store) (domain : String) : Option Shop :=
  st.shops.find? (fun sh => sh.shopifyDomain == domain)

/-- The lookup by the (shopId, visitorId) pair used by the carts and checkouts
handlers. -/
def findSessionByToken (st : Store) (shopId tok : String) : Option CartSession :=
  st.sessions.find? (fun s => s.shopId == shopId && s.visitorId == tok)

/-- A `findFirst(..., orderBy: {createdAt: "desc"})`: among matching sessions,
the one with the largest createdAt (first inserted wins ties). -/
def findLatest (l : List CartSession) (p : CartSession → Bool) : Option CartSession :=
  (l.filter p).foldl
    (fun acc s =>
      match acc with
      | none => some s
      | some b => if b.createdAt < s.createdAt then some s else some b)
    none

/-- Insert an event into a list kept sorted by descending timestamp. -/
def insertTsDesc (e : CartEvent) : List CartEvent → List CartEvent
  | [] => [e]
  | f :: rest => if f.timestamp < e.timestamp then e :: f :: rest else f :: insertTsDesc e rest

/-- Sort events by timestamp, newest first (`orderBy: {timestamp: "desc"}`). -/
def sortByTimestampDesc (es : List CartEvent) : List CartEvent :=
  es.foldr insertTsDesc []

/-- The event load of the checkouts handler: the session's events ordered by
timestamp descending, limited to 10 (`take: 10`). -/
def loadRecentEvents (events : List CartEvent) (sid : Nat) : List CartEvent :=
  (sortByTimestampDesc (events.filter (fun e => e.sessionId == sid))).take 10

/-- Number of stored `checkout_started` events belonging to a session. -/
def checkoutStartedCount (events : List CartEvent) (sid : Nat) : Nat :=
  (events.filter (fun e => e.sessionId == sid && e.eventType == .checkout_started)).length

/-- An arbitrary interleaving of atomic insert attempts against the store:
each attempt either commits or is rejected by the unique index and dropped.
This is the store-level view of concurrent at-least-once webhook delivery
(the spec pushes all cross-request invariants into store constraints). -/
def applyInserts (st : Store) (ops : List CartEvent) : Store :=
  ops.foldl (fun s e => match insertEvent s e with | .ok s' => s' | .error _ => s) st

/- ===== Webhook payloads ===== -/

/-- Payload slice of carts/create and carts/update notifications. -/
structure CartPayload where
  token : Option String := none
  id : Option String := none
  customer_id : Option String := none
  line_items : List CartLineItem := []
deriving DecidableEq, Repr

/-- Customer object of checkout/order payloads. -/
structure PayloadCustomer where
  id : Option String := none
  email : Option String := none
  first_name : Option String := none
  last_name : Option String := none
deriving DecidableEq, Repr

/-- Billing/shipping address slice of checkout payloads. -/
structure ContactAddress where
  first_name : Option String := none
  last_name : Option String := none
  city : Option String := none
  country : Option String := none
  country_code : Option String := none
deriving DecidableEq, Repr

/-- Payload slice of checkouts/create and checkouts/update notifications. -/
structure CheckoutPayload where
  cart_token : Option String := none
  email : Option String := none
  customer : Option PayloadCustomer := none
  billing_address : Option ContactAddress := none
  shipping_address : Option ContactAddress := none
  discount_codes : List String := []
  line_items : List CartLineItem := []
deriving DecidableEq, Repr

/-- Payload slice of orders/create notifications. -/
structure OrderPayload where
  id : Option String := none
  order_number : Option String := none
  customer : Option PayloadCustomer := none
  total_price : Option Int := none
  cart_token : Option String := none
deriving DecidableEq, Repr

/-- Payload of a pixel event posted by the storefront extension.  The geo
fields hold the values after the header/billing fallback chains; rate
limiting and sanitization are external glue (see header). -/
structure PixelPayload where
  shopDomain : Option String := none
  eventType : Option EventType := none
  visitorId : Option String := none
  customerId : Option String := none
  customerEmail : Option String := none
  customerName : Option String := none
  productId : Option String := none
  productTitle : Option String := none
  variantId : Option String := none
  variantTitle : Option String := none
  variantImage : Option String := none
  quantity : Option Int := none
  price : Option Int := none
  timestamp : Option Nat := none
  city : Option String := none
  country : Option String := none
  countryCode : Option String := none
deriving DecidableEq, Repr

/- ===== Carts webhook handler (webhooks.carts.tsx) ===== -/

/-- Webhook topics routed to the carts handler. -/
inductive CartsTopic where
  | create
  | update
  | other
deriving DecidableEq, Repr

/-- The CartSession record created by the upsert of a brand-new cart
(webhooks.carts.tsx lines 80-92 / 215-227). -/
def newCartSessionFromWebhook (sid : Nat) (shopId tok : String) (customerId : Option String)
    (totals : Int × Int) (ts : Nat) : CartSession :=
  { id := sid
    shopId := shopId
    visitorId := tok
    customerId := customerId
    cartCreated := true
    cartTotal := totals.1
    itemCount := totals.2
    createdAt := ts }

/-- The initial `cart_add` events created for each line item of a new cart
(lines 101-117 / 236-252); quantities here are the absolute snapshot
quantities, since the believed state is empty. -/
def initialAddEvent (sid : Nat) (ts : Nat) (it : CartLineItem) : CartEvent :=
  { sessionId := sid
    eventType := .cart_add
    productId := it.product_id
    productTitle := it.title
    variantId := it.variant_id
    variantTitle := it.variant_title
    variantImage := it.image
    quantity := some it.quantity
    price := it.price
    timestamp := ts }

/-- The session-field update of the CARTS_UPDATE branch (lines 202-212):
totals come from the payload, customerId falls back to the stored value. -/
def cartsSessionUpdate (s : CartSession) (items : List CartLineItem)
    (customerId : Option String) : CartSession :=
  { s with
    cartTotal := (payloadTotals items).1
    itemCount := (payloadTotals items).2
    customerId := customerId.orElse (fun _ => s.customerId) }

/-- The carts webhook action (webhooks.carts.tsx lines 43-277).  The cart
identifier `payload.token || payload.id` is modelled with a placeholder
default: a notification carrying neither field makes the source's findUnique
throw on the undefined visitorId and the catch answer 500, a path this
embedding leaves out of scope — its statements concern notifications that
carry a cart identifier. -/
def cartsHandler (st : Store) (topic : CartsTopic) (domain : String) (p : CartPayload)
    (ts : Nat) : Store × List Broadcast × Response :=
  if topic = .other then (st, [], .err 400)
  else
    match findShop st domain with
    | none => (st, [], .err 404)
    | some shopRecord =>
      let tok := (p.token.orElse (fun _ => p.id)).getD "undefined"
      let pt := payloadTotals p.line_items
      let sess0 := findSessionByToken st shopRecord.id tok
      if topic = .create ∧ sess0 = none ∧ p.line_items ≠ [] then
        let s := newCartSessionFromWebhook (freshSessionId st) shopRecord.id tok
          p.customer_id pt ts
        let st1 := appendEvents (addSession st s) (p.line_items.map (initialAddEvent s.id ts))
        (st1, [Broadcast.mk shopRecord.id "cart-update" s.id], .success)
      else
        match sess0 with
        | some session =>
          let lastEvents := st.events.filter (fun e => e.sessionId == session.id)
          let emitted := diffEvents session.id ts lastEvents p.line_items
          let st1 := putSession (appendEvents st emitted)
            (cartsSessionUpdate session p.line_items p.customer_id)
          (st1, [Broadcast.mk shopRecord.id "cart-update" session.id], .success)
        | none =>
          if p.line_items ≠ [] then
            let s := newCartSessionFromWebhook (freshSessionId st) shopRecord.id tok
              p.customer_id pt ts
            let st1 := appendEvents (addSession st s)
              (p.line_items.map (initialAddEvent s.id ts))
            (st1, [Broadcast.mk shopRecord.id "cart-update" s.id], .success)
          else (st, [], .success)

/-- The CARTS_UPDATE branch in isolation, as a transformer of one session and
its event log: returns the updated session, the full log afterwards, and the
newly emitted events. -/
def cartsUpdateBranch (s : CartSession) (log : List CartEvent) (items : List CartLineItem)
    (customerId : Option String) (ts : Nat) : CartSession × List CartEvent × List CartEvent :=
  let emitted := diffEvents s.id ts log items
  (cartsSessionUpdate s items customerId, log ++ emitted, emitted)

/- ===== Checkouts webhook handler (webhooks.checkouts.tsx) ===== -/

/-- JS `[first, last].filter(Boolean).join(" ")` with an empty result treated
as absent (the join is only consumed under truthiness checks). -/
def joinName (fn ln : Option String) : Option String :=
  match fn, ln with
  | some a, some b => some (a ++ " " ++ b)
  | some a, none => some a
  | none, some b => some b
  | none, none => none

/-- Name resolution of the checkouts handler (lines 68-74):
customer object, then billing address, then shipping address. -/
def resolvedNameOf (p : CheckoutPayload) : Option String :=
  (joinName (p.customer.bind PayloadCustomer.first_name)
      (p.customer.bind PayloadCustomer.last_name)).orElse
    (fun _ =>
      (joinName (p.billing_address.bind ContactAddress.first_name)
          (p.billing_address.bind ContactAddress.last_name)).orElse
        (fun _ =>
          joinName (p.shipping_address.bind ContactAddress.first_name)
            (p.shipping_address.bind ContactAddress.last_name)))

/-- Deduplicate discount codes keeping the first occurrence (lines 80-83). -/
def dedupCodes (l : List String) : List String :=
  l.foldl (fun acc c => if c ∈ acc then acc else acc ++ [c]) []

/-- The `updates` object the checkouts handler writes to the session
(lines 56-102): marks checkout started and merges customer, discount and geo
fields; the name is replaced only when none is stored or the resolved name is
longer. -/
def applyCheckoutSessionUpdates (s : CartSession) (p : CheckoutPayload) : CartSession :=
  let s1 := { s with checkoutStarted := true }
  let s2 := match p.customer.bind PayloadCustomer.id with
            | some i => { s1 with customerId := some i }
            | none => s1
  let s3 := match p.email.orElse (fun _ => p.customer.bind PayloadCustomer.email) with
            | some e => { s2 with customerEmail := some e }
            | none => s2
  let s4 := match resolvedNameOf p with
            | some n =>
                if s.customerName = none ∨ (s.customerName.map String.length).getD 0 < n.length
                then { s3 with customerName := some n }
                else s3
            | none => s3
  let s5 := if dedupCodes p.discount_codes ≠ [] then
              { s4 with discountCodes := some (dedupCodes p.discount_codes) }
            else s4
  match p.billing_address.orElse (fun _ => p.shipping_address) with
  | none => s5
  | some addr =>
      let s6 := match addr.city with | some c => { s5 with city := some c } | none => s5
      let s7 := match addr.country with | some c => { s6 with country := some c } | none => s6
      match addr.country_code with | some c => { s7 with countryCode := some c } | none => s7

/-- The `checkout_item` event created per checkout line item (lines 122-135). -/
def checkoutItemEvent (sid : Nat) (ts : Nat) (it : CartLineItem) : CartEvent :=
  { sessionId := sid
    eventType := .checkout_item
    productId := it.product_id
    productTitle := it.title
    variantId := it.variant_id
    variantTitle := it.variant_title
    quantity := some it.quantity
    price := it.price
    timestamp := ts }

/-- The checkouts webhook action (webhooks.checkouts.tsx lines 10-159).  The
action has no try/catch: when the `checkout_started` insert trips the partial
unique index, the exception escapes and the framework renders a 500 error
response, with the session update already persisted and no broadcast sent. -/
def checkoutsHandler (st : Store) (domain : String) (p : CheckoutPayload) (ts : Nat) :
    Store × List Broadcast × Response :=
  match p.cart_token with
  | none => (st, [], .success)
  | some tok =>
    match findShop st domain with
    | none => (st, [], .success)
    | some shopRecord =>
      match findSessionByToken st shopRecord.id tok with
      | none => (st, [], .success)
      | some cartSession =>
        let loaded := loadRecentEvents st.events cartSession.id
        let st1 := putSession st (applyCheckoutSessionUpdates cartSession p)
        let started : Except Unit Store :=
          if loaded.any (fun e => e.eventType == .checkout_started) then .ok st1
          else insertEvent st1
            { sessionId := cartSession.id, eventType := .checkout_started, timestamp := ts }
        match started with
        | .error _ => (st1, [], .err 500)
        | .ok st2 =>
          let st3 :=
            if loaded.any (fun e => e.eventType == .checkout_item) then st2
            else appendEvents st2 (p.line_items.map (checkoutItemEvent cartSession.id ts))
          (st3, [Broadcast.mk shopRecord.id "cart-update" cartSession.id], .success)

/- ===== Orders webhook handler (webhooks.orders.tsx) ===== -/

/-- The conversion update applied to a matched session (lines 60-73). -/
def ordersSessionUpdate (s : CartSession) (p : OrderPayload) : CartSession :=
  { s with
    orderPlaced := true
    orderId := p.id
    orderNumber := p.order_number
    orderValue := p.total_price.getD 0
    customerId := (p.customer.bind PayloadCustomer.id).orElse (fun _ => s.customerId)
    customerEmail := (p.customer.bind PayloadCustomer.email).orElse (fun _ => s.customerEmail)
    customerName :=
      match p.customer.bind PayloadCustomer.first_name,
            p.customer.bind PayloadCustomer.last_name with
      | some f, some l => some (f ++ " " ++ l)
      | _, _ => s.customerName }

/-- The orders webhook action (webhooks.orders.tsx lines 9-108).  A session is
matched by cart token only, restricted to un-converted sessions; a payload
with no cart token matches nothing. -/
def ordersHandler (st : Store) (topic : String) (domain : String) (p : OrderPayload) :
    Store × List Broadcast × Response :=
  if topic ≠ "ORDERS_CREATE" then (st, [], .err 400)
  else
    match findShop st domain with
    | none => (st, [], .err 404)
    | some shopRecord =>
      let sess0 : Option CartSession :=
        match p.cart_token with
        | some tok =>
            findLatest st.sessions
              (fun s => s.shopId == shopRecord.id && s.visitorId == tok && !s.orderPlaced)
        | none => none
      match sess0 with
      | none => (st, [], .success)
      | some session =>
        let st1 := appendEvents (putSession st (ordersSessionUpdate session p))
          [{ sessionId := session.id, eventType := .checkout_completed }]
        (st1, [Broadcast.mk shopRecord.id "cart-update" session.id], .success)

/- ===== Pixel events endpoint (src/unnamed/part_005) ===== -/

/-- JS truthiness of a possibly-absent number. -/
def truthyInt (o : Option Int) : Bool :=
  match o with
  | none => false
  | some v => v != 0

/-- The cart_add / cart_remove events of one session, as queried by the
recompute step (part_005 lines 216-221). -/
def sessionCartEvents (events : List CartEvent) (sid : Nat) : List CartEvent :=
  events.filter (fun e =>
    e.sessionId == sid && (e.eventType == .cart_add || e.eventType == .cart_remove))

/-- The totals recompute of the pixel endpoint (part_005 lines 223-239): adds
count when variantId, price and quantity are all truthy; removes subtract the
quantity when variantId and quantity are truthy, and the price only when it
is truthy.  (The side map of per-product quantities in the source is written
but never read, so it has no counterpart here.) -/
def recomputePixelTotals (evts : List CartEvent) : Int × Int :=
  evts.foldl
    (fun acc evt =>
      if evt.eventType = .cart_add ∧ evt.variantId.isSome ∧
          truthyInt evt.price ∧ truthyInt evt.quantity then
        (acc.1 + evt.price.getD 0 * evt.quantity.getD 0, acc.2 + evt.quantity.getD 0)
      else if evt.eventType = .cart_remove ∧ evt.variantId.isSome ∧ truthyInt evt.quantity then
        (acc.1 - (if truthyInt evt.price then evt.price.getD 0 * evt.quantity.getD 0 else 0),
         acc.2 - evt.quantity.getD 0)
      else acc)
    (0, 0)

/-- Identity/geo refresh of an existing session on a pixel event
(part_005 lines 178-189): incoming values win only when present. -/
def pixelSessionRefresh (s : CartSession) (p : PixelPayload) : CartSession :=
  { s with
    customerId := p.customerId.orElse (fun _ => s.customerId)
    customerEmail := p.customerEmail.orElse (fun _ => s.customerEmail)
    customerName := p.customerName.orElse (fun _ => s.customerName)
    city := p.city.orElse (fun _ => s.city)
    country := p.country.orElse (fun _ => s.country)
    countryCode := p.countryCode.orElse (fun _ => s.countryCode) }

/-- The CartSession created for a previously-unseen visitor id
(part_005 lines 152-175), restricted to the modelled fields. -/
def newPixelSession (sid : Nat) (shopId vid : String) (p : PixelPayload) (ts : Nat) :
    CartSession :=
  { id := sid
    shopId := shopId
    visitorId := vid
    customerId := p.customerId
    customerEmail := p.customerEmail
    customerName := p.customerName
    city := p.city
    country := p.country
    countryCode := p.countryCode
    createdAt := ts }

/-- Funnel/summary updates of the pixel endpoint (part_005 lines 210-279),
applied after the event row is stored: `cart_add` marks the cart created and
recomputes the totals from the session's full cart event log, floored at
zero; `checkout_started` sets the flag and clears a prior abandonment;
`checkout_completed` sets orderPlaced; a `page_view` during an unabandoned,
unconverted checkout appends a `checkout_abandoned` event and sets the flag.
Returns the store and session after the single `update` call. -/
def pixelFunnelStep (st : Store) (s : CartSession) (etype : EventType) (ts : Nat) :
    Store × CartSession :=
  let s1 :=
    if etype = .cart_add then
      let totals := recomputePixelTotals (sessionCartEvents st.events s.id)
      { s with cartCreated := true, cartTotal := max 0 totals.1, itemCount := max 0 totals.2 }
    else s
  let s2 :=
    if etype = .checkout_started then
      { s1 with
        checkoutStarted := true
        checkoutAbandoned := if s.checkoutAbandoned then false else s1.checkoutAbandoned }
    else s1
  let s3 := if etype = .checkout_completed then { s2 with orderPlaced := true } else s2
  let stepAbandon : Prop :=
    etype = .page_view ∧ s.checkoutStarted = true ∧ s.orderPlaced = false ∧
      s.checkoutAbandoned = false
  let st1 :=
    if stepAbandon then
      appendEvents st [{ sessionId := s.id, eventType := .checkout_abandoned, timestamp := ts }]
    else st
  let s4 := if stepAbandon then { s3 with checkoutAbandoned := true } else s3
  (putSession st1 s4, s4)

/-- Core of the pixel events action once the shop is resolved
(part_005 lines 142-296): find-or-create the CartSession by (shop, visitor),
store the event row (the outer try/catch turns a unique-index rejection into
a 500), apply the funnel/summary updates and broadcast. -/
def pixelCore (st : Store) (shop : Shop) (vid : String) (etype : EventType)
    (p : PixelPayload) (now : Nat) : Store × List Broadcast × Response :=
  let sessAndStore : Store × CartSession :=
    match findLatest st.sessions (fun s => s.shopId == shop.id && s.visitorId == vid) with
    | some s0 =>
        let s := pixelSessionRefresh s0 p
        (putSession st s, s)
    | none =>
        let s := newPixelSession (freshSessionId st) shop.id vid p now
        (addSession st s, s)
  let st1 := sessAndStore.1
  let cartSession := sessAndStore.2
  let ev : CartEvent :=
    { sessionId := cartSession.id
      eventType := etype
      productId := p.productId
      productTitle := p.productTitle
      variantId := p.variantId
      variantTitle := p.variantTitle
      variantImage := p.variantImage
      quantity := p.quantity
      price := p.price
      timestamp := p.timestamp.getD now }
  match insertEvent st1 ev with
  | .error _ => (st1, [], .err 500)
  | .ok st2 =>
      let stepped := pixelFunnelStep st2 cartSession etype (p.timestamp.getD now)
      (stepped.1, [Broadcast.mk shop.id "cart-update" cartSession.id], .success)

/-- The pixel events action (part_005 lines 35-301): validate the required
fields, verify the shop is installed, find-or-create the Shop record, then
run the core. -/
def pixelHandler (st : Store) (p : PixelPayload) (now : Nat) :
    Store × List Broadcast × Response :=
  match p.shopDomain, p.visitorId, p.eventType with
  | some dom, some vid, some etype =>
    if st.platformSessions.contains dom = false then (st, [], .err 403)
    else
      match findShop st dom with
      | some sh => pixelCore st sh vid etype p now
      | none =>
          let sh : Shop := { id := "shop:" ++ dom, shopifyDomain := dom }
          pixelCore { st with shops := st.shops ++ [sh] } sh vid etype p now
  | _, _, _ => (st, [], .err 400)

/- ===== Derived funnel state and notification dispatch ===== -/

/-- Funnel stages of a session. -/
inductive Funnel where
  | Viewing
  | Browsing
  | Checkout
  | Returned
  | Converted
deriving DecidableEq, Repr

/-- Funnel state derived from the session flags exactly as the dashboard's
status badge derives it: orderPlaced first, then checkoutAbandoned, then
checkoutStarted, then cartCreated. -/
def funnelState (s : CartSession) : Funnel :=
  if s.orderPlaced then .Converted
  else if s.checkoutAbandoned then .Returned
  else if s.checkoutStarted then .Checkout
  else if s.cartCreated then .Browsing
  else .Viewing

/-- Any inbound notification the pipeline processes. -/
inductive Notification where
  | carts (topic : CartsTopic) (domain : String) (p : CartPayload) (ts : Nat)
  | checkouts (domain : String) (p : CheckoutPayload) (ts : Nat)
  | orders (topic : String) (domain : String) (p : OrderPayload)
  | pixel (p : PixelPayload) (now : Nat)

/-- Dispatch a notification to its handler. -/
def handleNotification (st : Store) (n : Notification) : Store × List Broadcast × Response :=
  match n with
  | .carts topic domain p ts => cartsHandler st topic domain p ts
  | .checkouts domain p ts => checkoutsHandler st domain p ts
  | .orders topic domain p => ordersHandler st topic domain p
  | .pixel p now => pixelHandler st p now

/-- Session lookup by primary id (used to state properties of runs). -/
def getSessionById (st : Store) (sid : Nat) : Option CartSession :=
  st.sessions.find? (fun s => s.id == sid)

/- ===== SSE broadcast hub (app/services/sse.server.ts) ===== -/

/-- One live viewer connection; `sendOk` models whether `controller.enqueue`
succeeds for this connection (the transport is external). -/
structure SSEClient where
  id : String
  shopId : String
  sendOk : Bool
deriving DecidableEq, Repr

/-- `removeClient`: drop the connection with this id from the registry. -/
def removeClient (clients : List SSEClient) (cid : String) : List SSEClient :=
  clients.filter (fun c => c.id != cid)

/-- The loop of `SSEManager.broadcast` (sse.server.ts lines 41-62): iterate
over the snapshot of the tenant's connections; a successful enqueue records a
delivery, a failure removes only that connection; the loop catches every send
error, so the function is total and nothing propagates to the caller.
Returns (delivered client ids in order, registry afterwards). -/
def broadcastSSE (clients : List SSEClient) (shopId : String) : List String × List SSEClient :=
  (clients.filter (fun c => c.shopId == shopId)).foldl
    (fun acc c =>
      if c.sendOk then (acc.1 ++ [c.id], acc.2) else (acc.1, removeClient acc.2 c.id))
    ([], clients)

/- ===== Spec-side formulation for the C1 comparison ===== -/

/-- Modelled from the spec: the net sum of price×quantity and quantity deltas
across all `cart_add` / `cart_remove` events of a log — the value the spec
says the persisted cartTotal and itemCount must always equal.  This follows
the spec's words and exists only to be compared with the code's behaviour. -/
def specNetDeltas (evts : List CartEvent) : Int × Int :=
  evts.foldl
    (fun acc e =>
      if e.eventType = .cart_add then
        (acc.1 + e.price.getD 0 * e.quantity.getD 0, acc.2 + e.quantity.getD 0)
      else if e.eventType = .cart_remove then
        (acc.1 - e.price.getD 0 * e.quantity.getD 0, acc.2 - e.quantity.getD 0)
      else acc)
    (0, 0)

/- ===== Concrete fixtures used by counterexamples and witnesses ===== -/

/-- A store with one shop, one session holding 2×10 worth of cart, and the
matching cart_add event. -/
def c1Store : Store :=
  { shops := [{ id := "S1", shopifyDomain := "shop1.test" }]
    sessions := [{ id := 1, shopId := "S1", visitorId := "v1", cartCreated := true,
                   cartTotal := 20, itemCount := 2 }]
    events := [{ sessionId := 1, eventType := .cart_add, variantId := some "v",
                 quantity := some 2, price := some 10 }]
    platformSessions := ["shop1.test"] }

/-- A pixel cart_remove of one unit of the same variant. -/
def c1Payload : PixelPayload :=
  { shopDomain := some "shop1.test", eventType := some .cart_remove, visitorId := some "v1",
    variantId := some "v", quantity := some 1, price := some 10 }

/-- A store with one shop and no sessions or events. -/
def shopOnlyStore : Store :=
  { shops := [{ id := "S1", shopifyDomain := "shop1.test" }] }

/- ===== Claim C1 ===== -/

/-- Claim C1, counterexample: applying a `cart_remove` through the pixel
endpoint leaves the persisted itemCount at 2 while the net sum of quantity
deltas over the session's full event log is 1, and the handler reports
success — so the persisted aggregates are not recomputed from the event log
on every cart_add/cart_remove, contradicting the claim. -/
theorem C1_totalsRecomputed_counterexample :
    (pixelHandler c1Store c1Payload 50).2.2 = Response.success
    ∧ (getSessionById (pixelHandler c1Store c1Payload 50).1 1).map CartSession.itemCount
        = some 2
    ∧ (specNetDeltas
        ((pixelHandler c1Store c1Payload 50).1.events.filter (fun e => e.sessionId == 1))).2
        = 1
    ∧ ((2 : Int) = 1 → False) := by
  refine ⟨by decide, by decide, by decide, by decide⟩

/-- Claim C1, amended: the persisted cartTotal/itemCount are recomputed from
the session's full event log only on a pixel `cart_add` (as the filtered,
zero-floored recompute of part_005); a pixel `cart_remove` leaves both
aggregates untouched; and the carts webhook's snapshot branch persists
aggregates computed from the incoming payload's line items, not from the
event log. -/
theorem C1_totalsRecomputed_amended (st : Store) (s : CartSession) (ts : Nat)
    (items : List CartLineItem) (customerId : Option String) :
    ((pixelFunnelStep st s .cart_add ts).2.cartTotal
        = max 0 (recomputePixelTotals (sessionCartEvents st.events s.id)).1
      ∧ (pixelFunnelStep st s .cart_add ts).2.itemCount
        = max 0 (recomputePixelTotals (sessionCartEvents st.events s.id)).2)
    ∧ ((pixelFunnelStep st s .cart_remove ts).2.cartTotal = s.cartTotal
      ∧ (pixelFunnelStep st s .cart_remove ts).2.itemCount = s.itemCount)
    ∧ ((cartsSessionUpdate s items customerId).cartTotal = (payloadTotals items).1
      ∧ (cartsSessionUpdate s items customerId).itemCount = (payloadTotals items).2) := by
  refine ⟨⟨?_, ?_⟩, ⟨?_, ?_⟩, ?_, ?_⟩ <;> simp [pixelFunnelStep, cartsSessionUpdate]

/- ===== Claim C6 ===== -/

/-- Claim C6: an order notification that carries no cart token never mutates
any session (the entire store is unchanged, so no session fields change and
no event is created) and never emits a broadcast. -/
theorem C6_ordersWithoutToken_frame (st : Store) (topic domain : String) (p : OrderPayload)
    (h : p.cart_token = none) :
    (ordersHandler st topic domain p).1 = st ∧ (ordersHandler st topic domain p).2.1 = [] := by
  unfold ordersHandler
  by_cases ht : topic = "ORDERS_CREATE"
  · cases hf : findShop st domain <;> simp [ht, h, hf]
  · simp [ht]

/-- Witness for C6 at a concrete input. -/
theorem C6_ordersWithoutToken_frame_witness :
    (ordersHandler shopOnlyStore "ORDERS_CREATE" "shop1.test" { }).1 = shopOnlyStore
    ∧ (ordersHandler shopOnlyStore "ORDERS_CREATE" "shop1.test" { }).2.1 = [] :=
  C6_ordersWithoutToken_frame shopOnlyStore "ORDERS_CREATE" "shop1.test" { } rfl

/- ===== Claim C10 ===== -/

/-- Claim C10: a carts/create or carts/update notification whose token has no
existing session and whose line-item list is empty creates no session, writes
no events, publishes no broadcast (the store is returned unchanged), and
still returns success. -/
theorem C10_emptyNewCart_frame (st : Store) (topic : CartsTopic) (domain : String)
    (p : CartPayload) (ts : Nat) (shopRecord : Shop)
    (htopic : topic ≠ CartsTopic.other)
    (hshop : findShop st domain = some shopRecord)
    (hsess : findSessionByToken st shopRecord.id
        ((p.token.orElse (fun _ => p.id)).getD "undefined") = none)
    (hitems : p.line_items = []) :
    (cartsHandler st topic domain p ts).1 = st
    ∧ (cartsHandler st topic domain p ts).2.1 = []
    ∧ (cartsHandler st topic domain p ts).2.2 = Response.success := by
  unfold cartsHandler
  simp [htopic, hshop, hsess, hitems]

/-- Witness for C10 at a concrete input. -/
theorem C10_emptyNewCart_frame_witness :
    (cartsHandler shopOnlyStore .update "shop1.test" { token := some "t" } 7).1 = shopOnlyStore
    ∧ (cartsHandler shopOnlyStore .update "shop1.test" { token := some "t" } 7).2.1 = []
    ∧ (cartsHandler shopOnlyStore .update "shop1.test" { token := some "t" } 7).2.2
        = Response.success :=
  C10_emptyNewCart_frame shopOnlyStore .update "shop1.test" { token := some "t" } 7
    { id := "S1", shopifyDomain := "shop1.test" } (by decide) (by decide) (by decide) rfl

/- ===== Claim C8 ===== -/

/-- Claim C8, counterexample: the orders handler answers an unknown shop with
a 404 error response, not success — so not every uncorrelatable notification
(the claim explicitly includes "unknown shop") is reported as success. -/
theorem C8_uncorrelatedSuccess_counterexample :
    (ordersHandler { } "ORDERS_CREATE" "missing.test" { cart_token := some "t" }).2.2
        = Response.err 404
    ∧ ((ordersHandler { } "ORDERS_CREATE" "missing.test" { cart_token := some "t" }).2.2
        = Response.success → False) := by
  refine ⟨by decide, by decide⟩

/-- Claim C8, amended: whether an uncorrelatable notification is answered
with success depends on the handler.  The checkouts handler returns success
in every case: absent cart token, unknown shop, or no session matching the
token.  The orders handler returns success when the shop is known and the
cart token is absent or matches no un-converted session, but answers an
unknown shop with a 404 error, not success.  The carts handler also answers
an unknown shop with 404; for a known shop, a token that matches no session
is not skipped: with line items in the payload the handler creates a fresh
session for that token and returns success, and with an empty line-item list
it leaves the store untouched, broadcasts nothing and returns success. -/
theorem C8_uncorrelatedSuccess_amended :
    (∀ st : Store, ∀ domain : String, ∀ p : CheckoutPayload, ∀ ts : Nat,
      p.cart_token = none → (checkoutsHandler st domain p ts).2.2 = Response.success)
    ∧ (∀ st : Store, ∀ domain tok : String, ∀ p : CheckoutPayload, ∀ ts : Nat,
      p.cart_token = some tok → findShop st domain = none →
      (checkoutsHandler st domain p ts).2.2 = Response.success)
    ∧ (∀ st : Store, ∀ domain tok : String, ∀ p : CheckoutPayload, ∀ ts : Nat, ∀ sh : Shop,
      p.cart_token = some tok → findShop st domain = some sh →
      findSessionByToken st sh.id tok = none →
      (checkoutsHandler st domain p ts).2.2 = Response.success)
    ∧ (∀ st : Store, ∀ domain : String, ∀ p : OrderPayload, ∀ sh : Shop,
      findShop st domain = some sh → p.cart_token = none →
      (ordersHandler st "ORDERS_CREATE" domain p).2.2 = Response.success)
    ∧ (∀ st : Store, ∀ domain tok : String, ∀ p : OrderPayload, ∀ sh : Shop,
      findShop st domain = some sh → p.cart_token = some tok →
      findLatest st.sessions
        (fun s => s.shopId == sh.id && s.visitorId == tok && !s.orderPlaced) = none →
      (ordersHandler st "ORDERS_CREATE" domain p).2.2 = Response.success)
    ∧ (∀ st : Store, ∀ domain : String, ∀ p : OrderPayload,
      findShop st domain = none →
      (ordersHandler st "ORDERS_CREATE" domain p).2.2 = Response.err 404)
    ∧ (∀ st : Store, ∀ topic : CartsTopic, ∀ domain : String, ∀ p : CartPayload, ∀ ts : Nat,
      topic ≠ CartsTopic.other → findShop st domain = none →
      (cartsHandler st topic domain p ts).2.2 = Response.err 404)
    ∧ (∀ st : Store, ∀ topic : CartsTopic, ∀ domain : String, ∀ p : CartPayload, ∀ ts : Nat,
      ∀ sh : Shop,
      topic ≠ CartsTopic.other → findShop st domain = some sh →
      findSessionByToken st sh.id
        ((p.token.orElse (fun _ => p.id)).getD "undefined") = none →
      p.line_items = [] →
      (cartsHandler st topic domain p ts).1 = st
      ∧ (cartsHandler st topic domain p ts).2.1 = []
      ∧ (cartsHandler st topic domain p ts).2.2 = Response.success)
    ∧ (∀ st : Store, ∀ topic : CartsTopic, ∀ domain : String, ∀ p : CartPayload, ∀ ts : Nat,
      ∀ sh : Shop,
      topic ≠ CartsTopic.other → findShop st domain = some sh →
      findSessionByToken st sh.id
        ((p.token.orElse (fun _ => p.id)).getD "undefined") = none →
      p.line_items ≠ [] →
      (cartsHandler st topic domain p ts).2.2 = Response.success
      ∧ (cartsHandler st topic domain p ts).1.sessions
        = st.sessions
          ++ [newCartSessionFromWebhook (freshSessionId st) sh.id
                ((p.token.orElse (fun _ => p.id)).getD "undefined") p.customer_id
                (payloadTotals p.line_items) ts]) := by
  refine ⟨?_, ?_, ?_, ?_, ?_, ?_, ?_, ?_, ?_⟩
  · intro st domain p ts h
    simp [checkoutsHandler, h]
  · intro st domain tok p ts h hf
    simp [checkoutsHandler, h, hf]
  · intro st domain tok p ts sh h hf hs
    simp [checkoutsHandler, h, hf, hs]
  · intro st domain p sh hf h
    simp [ordersHandler, hf, h]
  · intro st domain tok p sh hf h hl
    simp [ordersHandler, hf, h, hl]
  · intro st domain p hf
    simp [ordersHandler, hf]
  · intro st topic domain p ts ht hf
    simp [cartsHandler, ht, hf]
  · intro st topic domain p ts sh ht hf hs hi
    unfold cartsHandler
    simp [ht, hf, hs, hi]
  · intro st topic domain p ts sh ht hf hs hi
    cases topic with
    | other => exact absurd rfl ht
    | create =>
        refine ⟨?_, ?_⟩ <;>
          simp [cartsHandler, hf, hs, hi, addSession, appendEvents]
    | update =>
        refine ⟨?_, ?_⟩ <;>
          simp [cartsHandler, hf, hs, hi, addSession, appendEvents]

/-- Fixture payload for the C8 witness: an unmatched token with one line
item. -/
def c8CartPayload : CartPayload :=
  { token := some "w"
    line_items := [{ product_id := some "P", variant_id := some "V",
                     quantity := 1, price := some 5 }] }

/-- Fixture payload for the C8 witness: an unmatched token with an empty
line-item list. -/
def c8EmptyCartPayload : CartPayload :=
  { token := some "u" }

/-- Witness for the amended C8 at concrete inputs: one success case per
handler (including both carts no-session cases) and one 404 case. -/
theorem C8_uncorrelatedSuccess_amended_witness :
    (checkoutsHandler shopOnlyStore "shop1.test" { } 0).2.2 = Response.success
    ∧ (ordersHandler shopOnlyStore "ORDERS_CREATE" "shop1.test" { }).2.2 = Response.success
    ∧ (ordersHandler { } "ORDERS_CREATE" "missing.test" { }).2.2 = Response.err 404
    ∧ ((cartsHandler shopOnlyStore .update "shop1.test" c8EmptyCartPayload 3).1 = shopOnlyStore
      ∧ (cartsHandler shopOnlyStore .update "shop1.test" c8EmptyCartPayload 3).2.1 = []
      ∧ (cartsHandler shopOnlyStore .update "shop1.test" c8EmptyCartPayload 3).2.2
          = Response.success)
    ∧ ((cartsHandler shopOnlyStore .update "shop1.test" c8CartPayload 4).2.2
          = Response.success
      ∧ (cartsHandler shopOnlyStore .update "shop1.test" c8CartPayload 4).1.sessions
        = shopOnlyStore.sessions
          ++ [newCartSessionFromWebhook (freshSessionId shopOnlyStore) "S1"
                ((c8CartPayload.token.orElse (fun _ => c8CartPayload.id)).getD "undefined")
                c8CartPayload.customer_id (payloadTotals c8CartPayload.line_items) 4]) :=
  ⟨C8_uncorrelatedSuccess_amended.1 shopOnlyStore "shop1.test" { } 0 rfl,
   C8_uncorrelatedSuccess_amended.2.2.2.1 shopOnlyStore "shop1.test"
     { } { id := "S1", shopifyDomain := "shop1.test" } (by decide) rfl,
   C8_uncorrelatedSuccess_amended.2.2.2.2.2.1 { } "missing.test" { } rfl,
   C8_uncorrelatedSuccess_amended.2.2.2.2.2.2.2.1 shopOnlyStore .update "shop1.test"
     c8EmptyCartPayload 3 { id := "S1", shopifyDomain := "shop1.test" }
     (by decide) (by decide) (by decide) rfl,
   C8_uncorrelatedSuccess_amended.2.2.2.2.2.2.2.2 shopOnlyStore .update "shop1.test"
     c8CartPayload 4 { id := "S1", shopifyDomain := "shop1.test" }
     (by decide) (by decide) (by decide) (by decide)⟩

/- ===== Claim C7 ===== -/

/-- Unfolding of the broadcast loop: deliveries are the healthy clients of the
iterated snapshot in order, and the registry results from removing each
failing client of the snapshot. -/
theorem broadcast_loop_unfold (l : List SSEClient) (acc : List String × List SSEClient) :
    (l.foldl
        (fun acc c =>
          if c.sendOk then (acc.1 ++ [c.id], acc.2) else (acc.1, removeClient acc.2 c.id))
        acc)
      = (acc.1 ++ (l.filter (fun c => c.sendOk)).map SSEClient.id,
         (l.filter (fun c => !c.sendOk)).foldl (fun cs c => removeClient cs c.id) acc.2) := by
  induction l generalizing acc with
  | nil => simp
  | cons c rest ih =>
      by_cases hc : c.sendOk = true
      · simp only [List.foldl_cons, if_pos hc, ih, List.filter_cons, hc]
        simp
      · have hc' : c.sendOk = false := by
          cases hcase : c.sendOk
          · rfl
          · exact absurd hcase hc
        simp only [List.foldl_cons, if_neg hc, ih, List.filter_cons, hc']
        simp

/-- Removing a batch of client ids one by one filters out exactly the entries
carrying one of those ids. -/
theorem foldl_removeClient_eq_filter (m cur : List SSEClient) :
    m.foldl (fun cs c => removeClient cs c.id) cur
      = cur.filter (fun c => m.all (fun f => c.id != f.id)) := by
  induction m generalizing cur with
  | nil => simp
  | cons f rest ih =>
      rw [List.foldl_cons, ih (removeClient cur f.id)]
      unfold removeClient
      rw [List.filter_filter]
      apply List.filter_congr
      intro c _
      simp [List.all_cons, Bool.and_comm]

/-- Claim C7: broadcasting to a tenant delivers the message to exactly the
healthy currently-subscribed connections of that tenant (in registry order);
the registry afterwards lacks exactly the failing subscribed connections, so
a send failure removes only that connection and leaves every other
connection, of this tenant or any other, untouched; and the loop is a total
function, so no error reaches the caller.  The id-uniqueness hypothesis holds
by construction, the registry being a Map keyed by client id. -/
theorem C7_broadcastIsolation (clients : List SSEClient) (shopId : String)
    (hnd : (clients.map SSEClient.id).Nodup) :
    (broadcastSSE clients shopId).1
        = (clients.filter (fun c => c.shopId == shopId && c.sendOk)).map SSEClient.id
    ∧ (broadcastSSE clients shopId).2
        = clients.filter (fun c => !(c.shopId == shopId) || c.sendOk) := by
  unfold broadcastSSE
  rw [broadcast_loop_unfold]
  constructor
  · simp only [List.nil_append, List.filter_filter]
    congr 1
    apply List.filter_congr
    intro c _
    exact Bool.and_comm _ _
  · rw [foldl_removeClient_eq_filter]
    apply List.filter_congr
    intro c hc
    cases hsend : c.sendOk with
    | true =>
        simp only [Bool.or_true]
        rw [List.all_eq_true]
        intro f hf
        simp only [List.mem_filter] at hf
        have hfc : f ∈ clients := hf.1.1
        simp only [bne_iff_ne, ne_eq]
        intro hid
        have : f = c := List.inj_on_of_nodup_map hnd hfc hc hid.symm
        subst this
        rw [hsend] at hf
        simp at hf
    | false =>
        cases hshop : (c.shopId == shopId) with
        | false =>
            simp only [hshop, Bool.not_false, Bool.true_or]
            rw [List.all_eq_true]
            intro f hf
            simp only [List.mem_filter] at hf
            have hfc : f ∈ clients := hf.1.1
            simp only [bne_iff_ne, ne_eq]
            intro hid
            have : f = c := List.inj_on_of_nodup_map hnd hfc hc hid.symm
            subst this
            rw [hshop] at hf
            simp at hf
        | true =>
            simp only [hshop, Bool.not_true, Bool.false_or]
            have hmem : c ∈ (clients.filter (fun c => c.shopId == shopId)).filter
                (fun c => !c.sendOk) := by
              simp [List.mem_filter, hc, hshop, hsend]
            cases hall : ((clients.filter (fun c => c.shopId == shopId)).filter
                (fun c => !c.sendOk)).all (fun f => c.id != f.id) with
            | false => rfl
            | true =>
                rw [List.all_eq_true] at hall
                have h2 := hall c hmem
                simp at h2

/-- Witness for C7: tenant T with V1 healthy and V2 failing — V1 receives the
message, V2 alone is removed. -/
theorem C7_broadcastIsolation_witness :
    (broadcastSSE [SSEClient.mk "V1" "T" true, SSEClient.mk "V2" "T" false] "T").1 = ["V1"]
    ∧ (broadcastSSE [SSEClient.mk "V1" "T" true, SSEClient.mk "V2" "T" false] "T").2
        = [SSEClient.mk "V1" "T" true] := by
  have h := C7_broadcastIsolation
    [SSEClient.mk "V1" "T" true, SSEClient.mk "V2" "T" false] "T" (by decide)
  refine ⟨?_, ?_⟩
  · rw [h.1]
    decide
  · rw [h.2]
    decide

/- ===== Claim C4 ===== -/

/-- A store's events gain one matching row on a matching append. -/
theorem count_append_one (events : List CartEvent) (e : CartEvent) (sid : Nat) :
    checkoutStartedCount (events ++ [e]) sid
      = checkoutStartedCount events sid
        + (if e.sessionId = sid ∧ e.eventType = .checkout_started then 1 else 0) := by
  unfold checkoutStartedCount
  rw [List.filter_append, List.length_append]
  congr 1
  by_cases h1 : e.sessionId = sid
  · by_cases h2 : e.eventType = .checkout_started
    · simp [h1, h2]
    · simp [h1, h2]
  · simp [h1]

/-- Appending rows that do not match the (session, checkout_started) pattern
leaves the count alone. -/
theorem count_append_nonmatching (events es : List CartEvent) (sid : Nat)
    (h : ∀ e ∈ es, e.sessionId ≠ sid ∨ e.eventType ≠ EventType.checkout_started) :
    checkoutStartedCount (events ++ es) sid = checkoutStartedCount events sid := by
  unfold checkoutStartedCount
  rw [List.filter_append, List.length_append]
  have hnil : es.filter (fun e => e.sessionId == sid && e.eventType == .checkout_started)
      = [] := by
    rw [List.filter_eq_nil]
    intro e he
    rcases h e he with hh | hh <;> simp [hh]
  simp [hnil]

/-- The existence test inside the unique-index check is exactly count
positivity. -/
theorem anyStarted_iff_count_pos (events : List CartEvent) (S : Nat) :
    (events.any (fun e' => e'.sessionId == S && e'.eventType == .checkout_started) = true)
      ↔ 0 < checkoutStartedCount events S := by
  unfold checkoutStartedCount
  rw [List.any_eq_true, List.length_pos]
  constructor
  · rintro ⟨e, he, hpred⟩
    intro hnil
    have : e ∈ events.filter
        (fun e => e.sessionId == S && e.eventType == .checkout_started) :=
      List.mem_filter.mpr ⟨he, hpred⟩
    rw [hnil] at this
    simp at this
  · intro h
    obtain ⟨e, he⟩ := List.exists_mem_of_ne_nil _ h
    have hm := List.mem_filter.mp he
    exact ⟨e, hm.1, hm.2⟩

/-- Effect of one guarded insert attempt on the checkout_started count of a
session: it becomes 1 when it was 0 and the attempt targets this session,
and is unchanged otherwise — in particular the unique index rejects any
attempt that would make it 2. -/
theorem insertAttempt_count (st : Store) (e : CartEvent) (sid : Nat) :
    checkoutStartedCount
        (match insertEvent st e with | .ok s' => s' | .error _ => st).events sid
      = if checkoutStartedCount st.events sid = 0
            ∧ e.sessionId = sid ∧ e.eventType = .checkout_started
        then 1 else checkoutStartedCount st.events sid := by
  unfold insertEvent violatesCheckoutStartedIndex
  by_cases h2 : e.eventType = EventType.checkout_started
  · by_cases h1 : e.sessionId = sid
    · by_cases h0 : checkoutStartedCount st.events sid = 0
      · have hany : (st.events.any
            (fun e' => e'.sessionId == e.sessionId && e'.eventType == .checkout_started))
            = false := by
          rw [Bool.eq_false_iff]
          intro hc
          rw [h1] at hc
          have := (anyStarted_iff_count_pos st.events sid).mp hc
          omega
        simp only [h2, hany]
        simp [count_append_one, h0, h1, h2]
      · have hpos : 0 < checkoutStartedCount st.events sid := by omega
        have hany := (anyStarted_iff_count_pos st.events sid).mpr hpos
        rw [← h1] at hany
        simp [h2, hany, h0]
    · cases hany : st.events.any
          (fun e' => e'.sessionId == e.sessionId && e'.eventType == .checkout_started) with
      | true => simp [h2, hany, h1]
      | false => simp [h2, hany, h1, count_append_one]
  · simp [h2, count_append_one]

/-- Effect of an arbitrary batch of insert attempts: the count becomes 1 when
it was 0 and some attempt targets the session, and is unchanged otherwise. -/
theorem applyInserts_count (st : Store) (ops : List CartEvent) (sid : Nat) :
    checkoutStartedCount (applyInserts st ops).events sid
      = if checkoutStartedCount st.events sid = 0
            ∧ (ops.any (fun e => e.sessionId == sid && e.eventType == .checkout_started)) = true
        then 1 else checkoutStartedCount st.events sid := by
  induction ops generalizing st with
  | nil => simp [applyInserts]
  | cons e rest ih =>
      unfold applyInserts
      rw [List.foldl_cons]
      have hstep := insertAttempt_count st e sid
      rw [show rest.foldl
            (fun s e => match insertEvent s e with | .ok s' => s' | .error _ => s)
            (match insertEvent st e with | .ok s' => s' | .error _ => st)
          = applyInserts
            (match insertEvent st e with | .ok s' => s' | .error _ => st) rest from rfl]
      rw [ih, hstep]
      by_cases h0 : checkoutStartedCount st.events sid = 0
      · by_cases hmatch : e.sessionId = sid ∧ e.eventType = EventType.checkout_started
        · have : (e.sessionId == sid && e.eventType == EventType.checkout_started) = true := by
            simp [hmatch.1, hmatch.2]
          simp [h0, hmatch, this]
        · have hb : (e.sessionId == sid && e.eventType == EventType.checkout_started)
              = false := by
            rw [Bool.eq_false_iff]
            intro hc
            simp only [Bool.and_eq_true, beq_iff_eq] at hc
            exact hmatch ⟨hc.1, hc.2⟩
          simp [h0, hmatch, hb, List.any_cons]
      · have hb1 : ¬(checkoutStartedCount st.events sid = 0
            ∧ e.sessionId = sid ∧ e.eventType = EventType.checkout_started) := by
          intro hc
          exact h0 hc.1
        simp [h0, hb1]

/-- Sessions updates do not change the event table. -/
theorem putSession_events (st : Store) (u : CartSession) :
    (putSession st u).events = st.events := rfl

/-- Every event the checkouts handler loads belongs to the session and the
store. -/
theorem mem_insertTsDesc {e x : CartEvent} {l : List CartEvent} :
    x ∈ insertTsDesc e l ↔ x = e ∨ x ∈ l := by
  induction l with
  | nil => simp [insertTsDesc]
  | cons f rest ih =>
      unfold insertTsDesc
      by_cases h : f.timestamp < e.timestamp
      · simp [h]
      · rw [if_neg h, List.mem_cons, ih, List.mem_cons]
        tauto

/-- Sorting by timestamp preserves membership. -/
theorem mem_sortByTimestampDesc {x : CartEvent} {l : List CartEvent} :
    x ∈ sortByTimestampDesc l ↔ x ∈ l := by
  induction l with
  | nil => simp [sortByTimestampDesc]
  | cons f rest ih =>
      unfold sortByTimestampDesc
      rw [List.foldr_cons, mem_insertTsDesc]
      unfold sortByTimestampDesc at ih
      rw [ih]
      simp

/-- Loaded events belong to the session and to the store. -/
theorem mem_loadRecentEvents {x : CartEvent} {events : List CartEvent} {sid : Nat}
    (h : x ∈ loadRecentEvents events sid) : x ∈ events ∧ x.sessionId = sid := by
  unfold loadRecentEvents at h
  have h1 := List.mem_of_mem_take h
  rw [mem_sortByTimestampDesc] at h1
  have h2 := List.mem_filter.mp h1
  refine ⟨h2.1, ?_⟩
  have := h2.2
  simpa using this

/-- Shape of the event table after one checkouts handler run: the run only
appends rows, and each appended row is a checkout_item or a checkout_started
for a session that had none stored. -/
theorem checkoutsHandler_events_shape (st : Store) (dom : String) (p : CheckoutPayload) (ts : Nat) :
    ∃ es : List CartEvent,
      (checkoutsHandler st dom p ts).1.events = st.events ++ es
      ∧ ∀ e ∈ es, e.eventType = EventType.checkout_item
          ∨ (e.eventType = EventType.checkout_started
             ∧ (st.events.any
                  (fun e' => e'.sessionId == e.sessionId
                    && e'.eventType == .checkout_started)) = false) := by
  cases htok : p.cart_token with
  | none => exact ⟨[], by simp [checkoutsHandler, htok], by simp⟩
  | some tok =>
    cases hshop : findShop st dom with
    | none => exact ⟨[], by simp [checkoutsHandler, htok, hshop], by simp⟩
    | some shopRecord =>
      cases hsess : findSessionByToken st shopRecord.id tok with
      | none => exact ⟨[], by simp [checkoutsHandler, htok, hshop, hsess], by simp⟩
      | some cartSession =>
        have hitemsOk : ∀ ts' : Nat,
            ∀ e ∈ p.line_items.map (checkoutItemEvent cartSession.id ts'),
            e.eventType = EventType.checkout_item
              ∨ (e.eventType = EventType.checkout_started
                 ∧ (st.events.any
                      (fun e' => e'.sessionId == e.sessionId
                        && e'.eventType == .checkout_started)) = false) := by
          intro ts' e he
          obtain ⟨it, _, rfl⟩ := List.mem_map.mp he
          exact Or.inl rfl
        by_cases hload : (loadRecentEvents st.events cartSession.id).any
            (fun e => e.eventType == .checkout_started) = true
        · by_cases hitems : (loadRecentEvents st.events cartSession.id).any
              (fun e => e.eventType == .checkout_item) = true
          · exact ⟨[], by simp [checkoutsHandler, htok, hshop, hsess, hload, hitems,
              putSession_events], by simp⟩
          · refine ⟨p.line_items.map (checkoutItemEvent cartSession.id ts), ?_, hitemsOk ts⟩
            simp [checkoutsHandler, htok, hshop, hsess, hload, hitems, appendEvents,
              putSession_events]
        · cases hany : (st.events.any
              (fun e' => e'.sessionId == cartSession.id
                && e'.eventType == .checkout_started)) with
          | true =>
              refine ⟨[], ?_, by simp⟩
              simp [checkoutsHandler, htok, hshop, hsess, hload, insertEvent,
                violatesCheckoutStartedIndex, putSession_events, hany]
          | false =>
              by_cases hitems : (loadRecentEvents st.events cartSession.id).any
                  (fun e => e.eventType == .checkout_item) = true
              · refine ⟨[CartEvent.mk cartSession.id .checkout_started none none none none
                    none none none ts], ?_, ?_⟩
                · simp [checkoutsHandler, htok, hshop, hsess, hload, hitems, insertEvent,
                    violatesCheckoutStartedIndex, putSession_events, hany]
                · intro e he
                  rcases List.mem_cons.mp he with hh | hh
                  · subst hh
                    exact Or.inr ⟨rfl, hany⟩
                  · simp at hh
              · refine ⟨CartEvent.mk cartSession.id .checkout_started none none none none
                      none none none ts
                    :: p.line_items.map (checkoutItemEvent cartSession.id ts), ?_, ?_⟩
                · simp [checkoutsHandler, htok, hshop, hsess, hload, hitems, insertEvent,
                    violatesCheckoutStartedIndex, putSession_events, hany, appendEvents]
                · intro e he
                  rcases List.mem_cons.mp he with hh | hh
                  · subst hh
                    exact Or.inr ⟨rfl, hany⟩
                  · exact hitemsOk ts e hh

/-- When a session already has a stored checkout_started event, a further
checkouts handler run never changes that session's checkout_started count:
either the in-handler check skips the insert or the unique index rejects it. -/
theorem checkoutsHandler_preserves_count (st : Store) (dom : String) (p : CheckoutPayload)
    (ts : Nat) (sid : Nat) (h : 0 < checkoutStartedCount st.events sid) :
    checkoutStartedCount (checkoutsHandler st dom p ts).1.events sid
      = checkoutStartedCount st.events sid := by
  obtain ⟨es, hshape, hes⟩ := checkoutsHandler_events_shape st dom p ts
  rw [hshape]
  apply count_append_nonmatching
  intro e he
  rcases hes e he with hh | ⟨hkind, hany⟩
  · right
    rw [hh]
    intro hc
    cases hc
  · by_cases hid : e.sessionId = sid
    · exfalso
      rw [Bool.eq_false_iff] at hany
      apply hany
      rw [hid]
      exact (anyStarted_iff_count_pos st.events sid).mpr h
    · exact Or.inl hid

/-- A checkouts handler run that correlates a session with no stored
checkout_started event stores exactly one. -/
theorem checkoutsHandler_inserts_started (st : Store) (dom : String) (p : CheckoutPayload)
    (ts : Nat) (tok : String) (shopRecord : Shop) (sess : CartSession)
    (htok : p.cart_token = some tok)
    (hshop : findShop st dom = some shopRecord)
    (hsess : findSessionByToken st shopRecord.id tok = some sess)
    (h0 : checkoutStartedCount st.events sess.id = 0) :
    checkoutStartedCount (checkoutsHandler st dom p ts).1.events sess.id = 1 := by
  have hloadF : ¬((loadRecentEvents st.events sess.id).any
      (fun e => e.eventType == .checkout_started) = true) := by
    intro hc
    rw [List.any_eq_true] at hc
    obtain ⟨e, he, hkind⟩ := hc
    obtain ⟨hmem, hsid⟩ := mem_loadRecentEvents he
    have hpos : 0 < checkoutStartedCount st.events sess.id := by
      apply (anyStarted_iff_count_pos _ _).mp
      rw [List.any_eq_true]
      refine ⟨e, hmem, ?_⟩
      simp only [Bool.and_eq_true, beq_iff_eq]
      exact ⟨hsid, by simpa using hkind⟩
    omega
  have hanyF : (st.events.any
      (fun e' => e'.sessionId == sess.id && e'.eventType == .checkout_started)) = false := by
    rw [Bool.eq_false_iff]
    intro hc
    have := (anyStarted_iff_count_pos st.events sess.id).mp hc
    omega
  by_cases hitems : (loadRecentEvents st.events sess.id).any
      (fun e => e.eventType == .checkout_item) = true
  · have hres : (checkoutsHandler st dom p ts).1.events
        = st.events
          ++ [CartEvent.mk sess.id .checkout_started none none none none none none none ts] := by
      simp [checkoutsHandler, htok, hshop, hsess, hloadF, hitems, insertEvent,
        violatesCheckoutStartedIndex, putSession_events, hanyF]
    rw [hres, count_append_one]
    simp [h0]
  · have hres : (checkoutsHandler st dom p ts).1.events
        = (st.events
            ++ [CartEvent.mk sess.id .checkout_started none none none none none none none ts])
          ++ p.line_items.map (checkoutItemEvent sess.id ts) := by
      simp [checkoutsHandler, htok, hshop, hsess, hloadF, hitems, insertEvent,
        violatesCheckoutStartedIndex, putSession_events, hanyF, appendEvents]
    rw [hres, count_append_nonmatching, count_append_one]
    · simp [h0]
    · intro e he
      obtain ⟨it, _, rfl⟩ := List.mem_map.mp he
      right
      intro hc
      cases hc

/-- Claim C4: at most one checkout_started event ever exists per session.  The
first two parts give the store-level guarantee for an arbitrary interleaving
of insert attempts — the shape to which concurrent or duplicate deliveries
reduce, since the partial unique index arbitrates each atomic insert: a count
of at most 1 is preserved forever, and from a clean session any batch that
attempts the insert yields exactly 1.  The third part is the sequential
two-notifications statement: delivering the same checkout.created twice for a
correlated session with no stored checkout_started event leaves exactly one
such event. -/
theorem C4_singleCheckoutStarted (st : Store) (ops : List CartEvent) (sid : Nat)
    (dom : String) (p : CheckoutPayload) (ts1 ts2 : Nat) :
    (checkoutStartedCount st.events sid ≤ 1 →
      checkoutStartedCount (applyInserts st ops).events sid ≤ 1)
    ∧ (checkoutStartedCount st.events sid = 0 →
        (ops.any (fun e => e.sessionId == sid && e.eventType == .checkout_started)) = true →
        checkoutStartedCount (applyInserts st ops).events sid = 1)
    ∧ (∀ tok : String, ∀ shopRecord : Shop, ∀ sess : CartSession,
        p.cart_token = some tok →
        findShop st dom = some shopRecord →
        findSessionByToken st shopRecord.id tok = some sess →
        sess.id = sid →
        checkoutStartedCount st.events sid = 0 →
        checkoutStartedCount
          ((checkoutsHandler (checkoutsHandler st dom p ts1).1 dom p ts2).1).events sid
          = 1) := by
  refine ⟨?_, ?_, ?_⟩
  · intro h
    rw [applyInserts_count]
    split
    · omega
    · omega
  · intro h0 hany
    rw [applyInserts_count]
    simp [h0, hany]
  · intro tok shopRecord sess htok hshop hsess hid h0
    subst hid
    have h1 := checkoutsHandler_inserts_started st dom p ts1 tok shopRecord sess htok
      hshop hsess h0
    have h2 := checkoutsHandler_preserves_count (checkoutsHandler st dom p ts1).1 dom p ts2
      sess.id (by rw [h1]; omega)
    rw [h2, h1]

/-- Fixture session for the C4 witness. -/
def c4Session : CartSession :=
  { id := 1, shopId := "S1", visitorId := "tok" }

/-- Fixture store for the C4 witness. -/
def c4Store : Store :=
  { shops := [{ id := "S1", shopifyDomain := "shop1.test" }]
    sessions := [c4Session] }

/-- Fixture checkout payload for the C4 witness. -/
def c4Payload : CheckoutPayload :=
  { cart_token := some "tok" }

/-- Fixture duplicate insert attempts for the C4 witness. -/
def c4Ops : List CartEvent :=
  [CartEvent.mk 1 .checkout_started none none none none none none none 3,
   CartEvent.mk 1 .checkout_started none none none none none none none 4]

/-- Witness for C4 at concrete inputs: two raw insert attempts, and two
sequential deliveries of the same checkout notification, each leave exactly
one checkout_started event. -/
theorem C4_singleCheckoutStarted_witness :
    checkoutStartedCount (applyInserts c4Store c4Ops).events 1 ≤ 1
    ∧ checkoutStartedCount (applyInserts c4Store c4Ops).events 1 = 1
    ∧ checkoutStartedCount
        ((checkoutsHandler (checkoutsHandler c4Store "shop1.test" c4Payload 5).1
          "shop1.test" c4Payload 6).1).events 1 = 1 := by
  have h := C4_singleCheckoutStarted c4Store c4Ops 1 "shop1.test" c4Payload 5 6
  exact ⟨h.1 (by decide), h.2.1 (by decide) (by decide),
    h.2.2 "tok" { id := "S1", shopifyDomain := "shop1.test" } c4Session rfl (by decide)
      (by decide) rfl (by decide)⟩

/- ===== Claim C9 ===== -/

/-- Fixture for C9: a session whose checkout_started event (timestamp 0) is
older than ten later cart_add events, so the handler's take-10 pre-check
misses it and the insert trips the unique index. -/
def c9Store : Store :=
  { shops := [{ id := "S1", shopifyDomain := "shop1.test" }]
    sessions := [{ id := 1, shopId := "S1", visitorId := "tok9", checkoutStarted := true }]
    events := CartEvent.mk 1 .checkout_started none none none none none none none 0
      :: (List.range 10).map (fun i =>
           CartEvent.mk 1 .cart_add none none (some "v") none none (some 1) (some 5) (i + 1)) }

/-- Fixture for C9: the same session with only the checkout_started event, so
the pre-check sees it. -/
def c9StoreFresh : Store :=
  { shops := [{ id := "S1", shopifyDomain := "shop1.test" }]
    sessions := [{ id := 1, shopId := "S1", visitorId := "tok9", checkoutStarted := true }]
    events := [CartEvent.mk 1 .checkout_started none none none none none none none 0] }

/-- Claim C9, counterexample: a duplicate checkout notification whose insert
trips the partial unique index is answered with a 500 error, not success —
no handler catches the constraint violation.  (Here the stored
checkout_started event lies outside the 10 most recent loaded events, so the
application-level pre-check misses it and the insert is attempted.) -/
theorem C9_duplicateCaught_counterexample :
    (checkoutsHandler c9Store "shop1.test" { cart_token := some "tok9" } 100).2.2
        = Response.err 500
    ∧ ((checkoutsHandler c9Store "shop1.test" { cart_token := some "tok9" } 100).2.2
        = Response.success → False) :=
  ⟨by decide, by decide⟩

/-- Claim C9, amended: a duplicate checkout notification is answered with
success when the prior checkout_started event is among the handler's loaded
events (the 10 most recent for the session) — the insert is skipped rather
than attempted, so the constraint never trips and the count is unchanged;
but when the pre-check misses and the insert does trip the uniqueness
constraint, the error is not caught: the handler responds with a 500 error
(while the event table is still unchanged, the index having rejected the
duplicate row). -/
theorem C9_duplicateResponse_amended (st : Store) (dom : String) (p : CheckoutPayload)
    (ts : Nat) (tok : String) (shopRecord : Shop) (sess : CartSession)
    (htok : p.cart_token = some tok)
    (hshop : findShop st dom = some shopRecord)
    (hsess : findSessionByToken st shopRecord.id tok = some sess) :
    ((loadRecentEvents st.events sess.id).any
        (fun e => e.eventType == .checkout_started) = true →
      (checkoutsHandler st dom p ts).2.2 = Response.success
      ∧ checkoutStartedCount (checkoutsHandler st dom p ts).1.events sess.id
          = checkoutStartedCount st.events sess.id)
    ∧ (¬((loadRecentEvents st.events sess.id).any
          (fun e => e.eventType == .checkout_started) = true) →
       (st.events.any
          (fun e' => e'.sessionId == sess.id && e'.eventType == .checkout_started)) = true →
      (checkoutsHandler st dom p ts).2.2 = Response.err 500
      ∧ (checkoutsHandler st dom p ts).1.events = st.events) := by
  constructor
  · intro hload
    constructor
    · simp [checkoutsHandler, htok, hshop, hsess, hload]
    · by_cases hitems : (loadRecentEvents st.events sess.id).any
          (fun e => e.eventType == .checkout_item) = true
      · have hres : (checkoutsHandler st dom p ts).1.events = st.events := by
          simp [checkoutsHandler, htok, hshop, hsess, hload, hitems, putSession_events]
        rw [hres]
      · have hres : (checkoutsHandler st dom p ts).1.events
            = st.events ++ p.line_items.map (checkoutItemEvent sess.id ts) := by
          simp [checkoutsHandler, htok, hshop, hsess, hload, hitems, putSession_events,
            appendEvents]
        rw [hres, count_append_nonmatching]
        intro e he
        obtain ⟨it, _, rfl⟩ := List.mem_map.mp he
        right
        intro hc
        cases hc
  · intro hloadF hanyT
    constructor
    · simp [checkoutsHandler, htok, hshop, hsess, hloadF, insertEvent,
        violatesCheckoutStartedIndex, putSession_events, hanyT]
    · simp [checkoutsHandler, htok, hshop, hsess, hloadF, insertEvent,
        violatesCheckoutStartedIndex, putSession_events, hanyT]

/-- Witness for the amended C9 at concrete inputs: the fresh store answers
success with the count unchanged; the stale-window store answers 500. -/
theorem C9_duplicateResponse_amended_witness :
    ((checkoutsHandler c9StoreFresh "shop1.test" { cart_token := some "tok9" } 100).2.2
        = Response.success
      ∧ checkoutStartedCount
          (checkoutsHandler c9StoreFresh "shop1.test"
            { cart_token := some "tok9" } 100).1.events 1
          = checkoutStartedCount c9StoreFresh.events 1)
    ∧ ((checkoutsHandler c9Store "shop1.test" { cart_token := some "tok9" } 100).2.2
        = Response.err 500
      ∧ (checkoutsHandler c9Store "shop1.test" { cart_token := some "tok9" } 100).1.events
          = c9Store.events) := by
  have h1 := C9_duplicateResponse_amended c9StoreFresh "shop1.test"
    { cart_token := some "tok9" } 100 "tok9" { id := "S1", shopifyDomain := "shop1.test" }
    { id := 1, shopId := "S1", visitorId := "tok9", checkoutStarted := true }
    rfl (by decide) (by decide)
  have h2 := C9_duplicateResponse_amended c9Store "shop1.test"
    { cart_token := some "tok9" } 100 "tok9" { id := "S1", shopifyDomain := "shop1.test" }
    { id := 1, shopId := "S1", visitorId := "tok9", checkoutStarted := true }
    rfl (by decide) (by decide)
  exact ⟨h1.1 (by decide), h2.2 (by decide) (by decide)⟩

/- ===== Claim C2 ===== -/

/-- Entries produced by `mset` are the new pair or old entries. -/
theorem mem_mset {α : Type} {m : List (String × α)} {k : String} {v : α} {p : String × α}
    (h : p ∈ mset m k v) : p = (k, v) ∨ p ∈ m := by
  induction m with
  | nil => simpa [mset] using h
  | cons q rest ih =>
      obtain ⟨k₀, v₀⟩ := q
      unfold mset at h
      by_cases h₀ : k₀ = k
      · rw [if_pos h₀] at h
        rcases List.mem_cons.mp h with hh | hh
        · exact Or.inl hh
        · exact Or.inr (List.mem_cons_of_mem _ hh)
      · rw [if_neg h₀] at h
        rcases List.mem_cons.mp h with hh | hh
        · exact Or.inr (by simp [hh])
        · rcases ih hh with hh2 | hh2
          · exact Or.inl hh2
          · exact Or.inr (List.mem_cons_of_mem _ hh2)

/-- One replay step keeps the key list duplicate-free. -/
theorem nodup_mkeys_stepEvent (m : List (String × Int)) (e : CartEvent)
    (h : (mkeys m).Nodup) : (mkeys (stepEvent m e)).Nodup := by
  unfold stepEvent
  by_cases h1 : e.eventType = EventType.cart_add
  · rw [if_pos h1]
    exact nodup_mkeys_mset m _ _ h
  · rw [if_neg h1]
    by_cases h2 : e.eventType = EventType.cart_remove
    · rw [if_pos h2]
      exact nodup_mkeys_mset m _ _ h
    · rw [if_neg h2]
      exact h

/-- The believed-state map has duplicate-free keys. -/
theorem nodup_mkeys_buildCurrentState (events : List CartEvent) :
    (mkeys (buildCurrentState events)).Nodup := by
  suffices h : ∀ m : List (String × Int), (mkeys m).Nodup →
      (mkeys (events.foldl stepEvent m)).Nodup by
    exact h [] (by simp [mkeys])
  induction events with
  | nil =>
      intro m hm
      simpa using hm
  | cons e rest ih =>
      intro m hm
      rw [List.foldl_cons]
      exact ih _ (nodup_mkeys_stepEvent m e hm)

/-- The snapshot map has duplicate-free keys and each entry is stored under
its own item key. -/
theorem buildNewState_entries (items : List CartLineItem) :
    (mkeys (buildNewState items)).Nodup
    ∧ ∀ p ∈ buildNewState items, itemKey p.2 = p.1 := by
  suffices h : ∀ m : List (String × CartLineItem), (mkeys m).Nodup →
      (∀ p ∈ m, itemKey p.2 = p.1) →
      (mkeys (items.foldl (fun m it => mset m (itemKey it) it) m)).Nodup
      ∧ ∀ p ∈ items.foldl (fun m it => mset m (itemKey it) it) m, itemKey p.2 = p.1 by
    exact h [] (by simp [mkeys]) (by simp)
  induction items with
  | nil =>
      intro m h1 h2
      exact ⟨h1, h2⟩
  | cons it rest ih =>
      intro m h1 h2
      rw [List.foldl_cons]
      apply ih
      · exact nodup_mkeys_mset m _ it h1
      · intro p hp
        rcases mem_mset hp with hh | hh
        · rw [hh]
        · exact h2 p hh

/-- In a duplicate-free association list, the entries passing a filter that
only a single stored pair satisfies are exactly that pair. -/
theorem filter_eq_singleton_of_mget (m : List (String × Int)) (p : String × Int → Bool)
    (k : String) (v : Int) (hnd : (mkeys m).Nodup) (hk : mget m k = some v)
    (hpk : p (k, v) = true) (hother : ∀ q ∈ m, q.1 ≠ k → p q = false) :
    m.filter p = [(k, v)] := by
  induction m with
  | nil => simp [mget] at hk
  | cons q rest ih =>
      obtain ⟨k₀, v₀⟩ := q
      simp only [mkeys, List.map_cons, List.nodup_cons] at hnd
      by_cases h₀ : k₀ = k
      · subst h₀
        unfold mget at hk
        rw [if_pos rfl] at hk
        injection hk with hv
        subst hv
        have hrest : rest.filter p = [] := by
          rw [List.filter_eq_nil_iff]
          intro q hq
          have hq1 : q.1 ≠ k₀ := by
            intro hc
            exact hnd.1 (hc ▸ List.mem_map_of_mem Prod.fst hq)
          simp [hother q (List.mem_cons_of_mem _ hq) hq1]
        rw [List.filter_cons, if_pos (by simp [hpk]), hrest]
      · have hp₀ : p (k₀, v₀) = false :=
          hother (k₀, v₀) (List.mem_cons_self _ _) h₀
        rw [List.filter_cons, if_neg (by simp [hp₀])]
        apply ih (by simpa [mkeys] using hnd.2)
        · unfold mget at hk
          rwa [if_neg h₀] at hk
        · intro q hq hq1
          exact hother q (List.mem_cons_of_mem _ hq) hq1

/-- The snapshot line items of the C2 scenario: {A:3, C:2}. -/
def c2Items : List CartLineItem :=
  [{ variant_id := some "A", quantity := 3 }, { variant_id := some "C", quantity := 2 }]

/-- Claim C2: for any session whose replayed event history gives believed
quantities {A:2, B:1} (and 0 for every other key), processing a snapshot with
line items {A:3, C:2} emits exactly three events — cart_add for A, cart_add
for C, cart_remove for B — and each carries only the delta quantity (+1, +2,
−1), never the absolute snapshot quantity. -/
theorem C2_deltaCorrectness (log : List CartEvent) (sid ts : Nat)
    (h1 : mget (buildCurrentState log) "A" = some 2)
    (h2 : mget (buildCurrentState log) "B" = some 1)
    (h3 : ∀ k : String, k ≠ "A" → k ≠ "B" → mval (buildCurrentState log) k = 0) :
    ((additionsOf (buildCurrentState log) (buildNewState c2Items)).map
        (fun a => (a.key, a.quantity - a.oldQty)) = [("A", 1), ("C", 2)])
    ∧ ((removalsOf (buildCurrentState log) (buildNewState c2Items) log).map
        (fun r => (r.key, r.removedQty)) = [("B", 1)])
    ∧ ((diffEvents sid ts log c2Items).map (fun e => (e.eventType, e.quantity))
        = [(EventType.cart_add, some 1), (EventType.cart_add, some 2),
           (EventType.cart_remove, some 1)]) := by
  have hC : mval (buildCurrentState log) "C" = 0 := h3 "C" (by decide) (by decide)
  have hnew : buildNewState c2Items
      = [("A", { variant_id := some "A", quantity := 3 }),
         ("C", { variant_id := some "C", quantity := 2 })] := rfl
  have hvalA : mval (buildCurrentState log) "A" = 2 := by simp [mval, h1]
  have hadds : additionsOf (buildCurrentState log) (buildNewState c2Items)
      = [Addition.mk "A" 3 { variant_id := some "A", quantity := 3 } 2,
         Addition.mk "C" 2 { variant_id := some "C", quantity := 2 } 0] := by
    rw [additionsOf, hnew]
    simp only [List.map_cons, List.map_nil, hvalA, hC]
    decide
  have hnewB : newQtyOf (buildNewState c2Items) "B" = 0 := rfl
  have hfilter : (buildCurrentState log).filter
      (fun p => decide (0 < p.2) && decide (newQtyOf (buildNewState c2Items) p.1 < p.2))
      = [("B", 1)] := by
    apply filter_eq_singleton_of_mget _ _ "B" 1 (nodup_mkeys_buildCurrentState log) h2
    · simp [hnewB]
    · intro q hq hq1
      by_cases hqA : q.1 = "A"
      · have : mget (buildCurrentState log) "A" = some q.2 := by
          rw [← hqA]
          exact mget_of_mem_nodup _ _ _ (nodup_mkeys_buildCurrentState log)
            (by rw [← Prod.mk.eta (p := q)] at hq; exact hq)
        rw [h1] at this
        injection this with hv
        have hq3 : newQtyOf (buildNewState c2Items) q.1 = 3 := by rw [hqA]; rfl
        rw [hq3, ← hv]
        decide
      · have hq2 : mget (buildCurrentState log) q.1 = some q.2 :=
          mget_of_mem_nodup _ _ _ (nodup_mkeys_buildCurrentState log)
            (by rw [← Prod.mk.eta (p := q)] at hq; exact hq)
        have : mval (buildCurrentState log) q.1 = 0 := h3 q.1 hqA hq1
        rw [mval, hq2] at this
        simp only [Option.getD_some] at this
        simp [this]
  have hrems : removalsOf (buildCurrentState log) (buildNewState c2Items) log
      = [Removal.mk "B" 1 (lastAddFor log "B")] := by
    rw [removalsOf, hfilter]
    simp [hnewB]
  refine ⟨?_, ?_, ?_⟩
  · rw [hadds]
    decide
  · rw [hrems]
    simp
  · rw [diffEvents]
    simp only [hadds, hrems]
    simp [additionEvent, removalEvent]

/-- Fixture log for the C2 witness: one add of A×2 and one add of B×1. -/
def c2Log : List CartEvent :=
  [CartEvent.mk 7 .cart_add none none (some "A") none none (some 2) (some 10) 1,
   CartEvent.mk 7 .cart_add none none (some "B") none none (some 1) (some 4) 2]

/-- Witness for C2 at a concrete event history replaying to {A:2, B:1}. -/
theorem C2_deltaCorrectness_witness :
    ((additionsOf (buildCurrentState c2Log) (buildNewState c2Items)).map
        (fun a => (a.key, a.quantity - a.oldQty)) = [("A", 1), ("C", 2)])
    ∧ ((removalsOf (buildCurrentState c2Log) (buildNewState c2Items) c2Log).map
        (fun r => (r.key, r.removedQty)) = [("B", 1)])
    ∧ ((diffEvents 7 9 c2Log c2Items).map (fun e => (e.eventType, e.quantity))
        = [(EventType.cart_add, some 1), (EventType.cart_add, some 2),
           (EventType.cart_remove, some 1)]) := by
  have hcur : buildCurrentState c2Log = [("A", 2), ("B", 1)] := by decide
  apply C2_deltaCorrectness c2Log 7 9
  · rw [hcur]
    decide
  · rw [hcur]
    decide
  · intro k hA hB
    rw [hcur]
    simp [mval, mget, Ne.symm hA, Ne.symm hB]

/- ===== Claim C5 ===== -/

/-- Members of a list bound above by the folded maximum. -/
theorem le_foldr_max (l : List Nat) (a b : Nat) (h : a ∈ l) : a ≤ l.foldr max b := by
  induction l with
  | nil => simp at h
  | cons x rest ih =>
      rw [List.foldr_cons]
      rcases List.mem_cons.mp h with hh | hh
      · subst hh
        exact Nat.le_max_left _ _
      · exact Nat.le_trans (ih hh) (Nat.le_max_right _ _)

/-- A freshly allocated session id differs from every stored session's id. -/
theorem freshSessionId_ne (st : Store) (s : CartSession) (h : s ∈ st.sessions) :
    s.id ≠ freshSessionId st := by
  have hle : s.id ≤ (st.sessions.map CartSession.id).foldr max 0 :=
    le_foldr_max _ _ _ (List.mem_map_of_mem CartSession.id h)
  unfold freshSessionId
  omega

/-- In a store with duplicate-free session ids, a member is determined by its
id. -/
theorem session_eq_of_id_eq (l : List CartSession) (s s' : CartSession)
    (hnd : (l.map CartSession.id).Nodup) (hs : s ∈ l) (hs' : s' ∈ l)
    (hid : s'.id = s.id) : s' = s :=
  List.inj_on_of_nodup_map hnd hs' hs hid

/-- `putSession` keeps the id column unchanged. -/
theorem putSession_ids (l : List CartSession) (u : CartSession) :
    (l.map (fun t => if t.id = u.id then u else t)).map CartSession.id
      = l.map CartSession.id := by
  rw [List.map_map]
  apply List.map_congr_left
  intro t _
  by_cases h : t.id = u.id
  · simp [h]
  · simp [h]

/-- Say a session-id is "converted throughout" a session list when every
entry carrying it has orderPlaced set.  Updating a stored session through a
transform that preserves a set orderPlaced flag keeps the id converted
throughout. -/
theorem updated_preserves_convertedAt (l : List CartSession) (u m : CartSession) (i : Nat)
    (hm : m ∈ l) (hu : u.id = m.id)
    (hup : m.orderPlaced = true → u.orderPlaced = true)
    (href : ∀ t ∈ l, t.id = i → t.orderPlaced = true) :
    ∀ s' ∈ l.map (fun t => if t.id = u.id then u else t), s'.id = i →
      s'.orderPlaced = true := by
  intro s' hs' hid
  simp only [List.mem_map] at hs'
  obtain ⟨t, ht, hts⟩ := hs'
  by_cases htid : t.id = u.id
  · rw [if_pos htid] at hts
    subst hts
    exact hup (href m hm (by rw [← hu, hid]))
  · rw [if_neg htid] at hts
    subst hts
    exact href t ht hid

/-- Appending a row with a different id keeps an id converted throughout. -/
theorem appended_preserves_convertedAt (l : List CartSession) (nw : CartSession) (i : Nat)
    (hfresh : nw.id ≠ i)
    (href : ∀ t ∈ l, t.id = i → t.orderPlaced = true) :
    ∀ s' ∈ l ++ [nw], s'.id = i → s'.orderPlaced = true := by
  intro s' hs' hid
  rcases List.mem_append.mp hs' with hh | hh
  · exact href s' hh hid
  · simp only [List.mem_singleton] at hh
    subst hh
    exact absurd hid hfresh

/-- A session found by `findLatest` is a stored session satisfying the
predicate. -/
theorem findLatest_mem (l : List CartSession) (p : CartSession → Bool) (x : CartSession)
    (h : findLatest l p = some x) : x ∈ l ∧ p x = true := by
  have hgen : ∀ m : List CartSession, ∀ acc : Option CartSession,
      (m.foldl (fun acc s =>
        match acc with
        | none => some s
        | some b => if b.createdAt < s.createdAt then some s else some b) acc = some x) →
      acc = some x ∨ x ∈ m := by
    intro m
    induction m with
    | nil =>
        intro acc h
        exact Or.inl h
    | cons s rest ih =>
        intro acc h
        rw [List.foldl_cons] at h
        rcases ih _ h with hh | hh
        · cases acc with
          | none =>
              simp only [] at hh
              injection hh with hh
              exact Or.inr (by simp [← hh])
          | some b =>
              by_cases hlt : b.createdAt < s.createdAt
              · simp only [if_pos hlt] at hh
                injection hh with hh
                exact Or.inr (by simp [← hh])
              · simp only [if_neg hlt] at hh
                exact Or.inl hh
        · exact Or.inr (List.mem_cons_of_mem _ hh)
  unfold findLatest at h
  rcases hgen (l.filter p) none h with hh | hh
  · cases hh
  · have hm := List.mem_filter.mp hh
    exact ⟨hm.1, hm.2⟩

/-- The checkouts session update never touches id or orderPlaced. -/
theorem applyCheckoutSessionUpdates_id (s : CartSession) (p : CheckoutPayload) :
    (applyCheckoutSessionUpdates s p).id = s.id
    ∧ (applyCheckoutSessionUpdates s p).orderPlaced = s.orderPlaced := by
  unfold applyCheckoutSessionUpdates
  cases p.customer.bind PayloadCustomer.id <;>
    cases p.email.orElse (fun _ => p.customer.bind PayloadCustomer.email) <;>
    cases hr : resolvedNameOf p <;>
    cases hb : p.billing_address.orElse (fun _ => p.shipping_address) <;>
    simp only []
  all_goals repeat' split
  all_goals exact ⟨rfl, rfl⟩

/-- The pixel funnel step never changes the session id. -/
theorem pixelFunnelStep_id (st : Store) (s : CartSession) (etype : EventType) (ts : Nat) :
    (pixelFunnelStep st s etype ts).2.id = s.id := by
  unfold pixelFunnelStep
  simp [apply_ite CartSession.id]

/-- The pixel funnel step never clears orderPlaced. -/
theorem pixelFunnelStep_orderPlaced (st : Store) (s : CartSession) (etype : EventType)
    (ts : Nat) (h : s.orderPlaced = true) :
    (pixelFunnelStep st s etype ts).2.orderPlaced = true := by
  unfold pixelFunnelStep
  simp [apply_ite CartSession.orderPlaced, h]

/-- A successful insert does not touch the session table. -/
theorem insertEvent_ok_sessions (st : Store) (e : CartEvent) (st' : Store)
    (h : insertEvent st e = .ok st') : st'.sessions = st.sessions := by
  unfold insertEvent at h
  by_cases hv : violatesCheckoutStartedIndex st.events e = true
  · rw [if_pos hv] at h
    cases h
  · rw [if_neg hv] at h
    injection h with h
    rw [← h]

/-- A carts webhook run keeps a converted session id converted throughout the
store. -/
theorem cartsHandler_convertedAt (st : Store) (topic : CartsTopic) (domain : String)
    (p : CartPayload) (ts : Nat) (i : Nat)
    (href : ∀ t ∈ st.sessions, t.id = i → t.orderPlaced = true)
    (hfresh : freshSessionId st ≠ i) :
    ∀ s' ∈ (cartsHandler st topic domain p ts).1.sessions, s'.id = i →
      s'.orderPlaced = true := by
  by_cases ht : topic = CartsTopic.other
  · intro s' hs' hid
    have hsss : (cartsHandler st topic domain p ts).1.sessions = st.sessions := by
      simp [cartsHandler, ht]
    rw [hsss] at hs'
    exact href s' hs' hid
  cases hshop : findShop st domain with
  | none =>
      intro s' hs' hid
      have hsss : (cartsHandler st topic domain p ts).1.sessions = st.sessions := by
        simp [cartsHandler, ht, hshop]
      rw [hsss] at hs'
      exact href s' hs' hid
  | some shopRecord =>
      cases hsess : findSessionByToken st shopRecord.id
          ((p.token.orElse (fun _ => p.id)).getD "undefined") with
      | some session =>
          have hsss : (cartsHandler st topic domain p ts).1.sessions
              = st.sessions.map (fun t =>
                  if t.id = (cartsSessionUpdate session p.line_items p.customer_id).id
                  then cartsSessionUpdate session p.line_items p.customer_id else t) := by
            simp [cartsHandler, ht, hshop, hsess, appendEvents, putSession]
          intro s' hs' hid
          rw [hsss] at hs'
          exact updated_preserves_convertedAt st.sessions
            (cartsSessionUpdate session p.line_items p.customer_id) session i
            (List.mem_of_find?_eq_some hsess) rfl (fun h => h) href s' hs' hid
      | none =>
          by_cases hitems : p.line_items = []
          · intro s' hs' hid
            have hsss : (cartsHandler st topic domain p ts).1.sessions = st.sessions := by
              simp [cartsHandler, ht, hshop, hsess, hitems]
            rw [hsss] at hs'
            exact href s' hs' hid
          · have hsss : (cartsHandler st topic domain p ts).1.sessions
                = st.sessions
                  ++ [newCartSessionFromWebhook (freshSessionId st) shopRecord.id
                      ((p.token.orElse (fun _ => p.id)).getD "undefined") p.customer_id
                      (payloadTotals p.line_items) ts] := by
              by_cases htc : topic = CartsTopic.create
              · simp [cartsHandler, ht, htc, hshop, hsess, hitems, addSession, appendEvents]
              · simp [cartsHandler, ht, htc, hshop, hsess, hitems, addSession, appendEvents]
            intro s' hs' hid
            rw [hsss] at hs'
            exact appended_preserves_convertedAt st.sessions _ i hfresh href s' hs' hid

/-- A checkouts webhook run keeps a converted session id converted throughout
the store. -/
theorem checkoutsHandler_convertedAt (st : Store) (dom : String) (p : CheckoutPayload)
    (ts : Nat) (i : Nat)
    (href : ∀ t ∈ st.sessions, t.id = i → t.orderPlaced = true) :
    ∀ s' ∈ (checkoutsHandler st dom p ts).1.sessions, s'.id = i →
      s'.orderPlaced = true := by
  cases htok : p.cart_token with
  | none =>
      intro s' hs' hid
      have hsss : (checkoutsHandler st dom p ts).1.sessions = st.sessions := by
        simp [checkoutsHandler, htok]
      rw [hsss] at hs'
      exact href s' hs' hid
  | some tok =>
  cases hshop : findShop st dom with
  | none =>
      intro s' hs' hid
      have hsss : (checkoutsHandler st dom p ts).1.sessions = st.sessions := by
        simp [checkoutsHandler, htok, hshop]
      rw [hsss] at hs'
      exact href s' hs' hid
  | some shopRecord =>
  cases hsess : findSessionByToken st shopRecord.id tok with
  | none =>
      intro s' hs' hid
      have hsss : (checkoutsHandler st dom p ts).1.sessions = st.sessions := by
        simp [checkoutsHandler, htok, hshop, hsess]
      rw [hsss] at hs'
      exact href s' hs' hid
  | some cartSession =>
      have hsss : (checkoutsHandler st dom p ts).1.sessions
          = st.sessions.map (fun t =>
              if t.id = (applyCheckoutSessionUpdates cartSession p).id
              then applyCheckoutSessionUpdates cartSession p else t) := by
        simp only [checkoutsHandler, htok, hshop, hsess]
        by_cases hload : (loadRecentEvents st.events cartSession.id).any
            (fun e => e.eventType == .checkout_started) = true
        · rw [if_pos hload]
          simp [putSession, appendEvents, apply_ite Store.sessions]
        · rw [if_neg hload]
          cases hres : insertEvent (putSession st (applyCheckoutSessionUpdates cartSession p))
              { sessionId := cartSession.id, eventType := .checkout_started,
                timestamp := ts } with
          | error u =>
              simp [putSession]
          | ok st2 =>
              have h2 : st2.sessions
                  = (putSession st (applyCheckoutSessionUpdates cartSession p)).sessions :=
                insertEvent_ok_sessions _ _ _ hres
              simp [appendEvents, apply_ite Store.sessions, h2, putSession]
      intro s' hs' hid
      rw [hsss] at hs'
      have hop : (applyCheckoutSessionUpdates cartSession p).orderPlaced
          = cartSession.orderPlaced := (applyCheckoutSessionUpdates_id cartSession p).2
      exact updated_preserves_convertedAt st.sessions _ cartSession i
        (List.mem_of_find?_eq_some hsess) (applyCheckoutSessionUpdates_id cartSession p).1
        (fun h => by rw [hop]; exact h) href s' hs' hid

/-- An orders webhook run keeps a converted session id converted throughout
the store. -/
theorem ordersHandler_convertedAt (st : Store) (topic domain : String) (p : OrderPayload)
    (i : Nat) (href : ∀ t ∈ st.sessions, t.id = i → t.orderPlaced = true) :
    ∀ s' ∈ (ordersHandler st topic domain p).1.sessions, s'.id = i →
      s'.orderPlaced = true := by
  by_cases ht : topic = "ORDERS_CREATE"
  · cases hshop : findShop st domain with
    | none =>
        intro s' hs' hid
        have hsss : (ordersHandler st topic domain p).1.sessions = st.sessions := by
          simp [ordersHandler, ht, hshop]
        rw [hsss] at hs'
        exact href s' hs' hid
    | some shopRecord =>
        cases htokk : p.cart_token with
        | none =>
            intro s' hs' hid
            have hsss : (ordersHandler st topic domain p).1.sessions = st.sessions := by
              simp [ordersHandler, ht, hshop, htokk]
            rw [hsss] at hs'
            exact href s' hs' hid
        | some tok =>
            cases hfl : findLatest st.sessions
                (fun s => s.shopId == shopRecord.id && s.visitorId == tok
                  && !s.orderPlaced) with
            | none =>
                intro s' hs' hid
                have hsss : (ordersHandler st topic domain p).1.sessions = st.sessions := by
                  simp [ordersHandler, ht, hshop, htokk, hfl]
                rw [hsss] at hs'
                exact href s' hs' hid
            | some session =>
                have hsss : (ordersHandler st topic domain p).1.sessions
                    = st.sessions.map (fun t =>
                        if t.id = (ordersSessionUpdate session p).id
                        then ordersSessionUpdate session p else t) := by
                  simp [ordersHandler, ht, hshop, htokk, hfl, putSession, appendEvents]
                intro s' hs' hid
                rw [hsss] at hs'
                exact updated_preserves_convertedAt st.sessions
                  (ordersSessionUpdate session p) session i
                  (findLatest_mem _ _ _ hfl).1 rfl (fun _ => rfl) href s' hs' hid
  · intro s' hs' hid
    have hsss : (ordersHandler st topic domain p).1.sessions = st.sessions := by
      simp [ordersHandler, ht]
    rw [hsss] at hs'
    exact href s' hs' hid

/-- The store the pixel funnel step returns carries the stepped session in
place of the one with its id. -/
theorem pixelFunnelStep_result (st : Store) (s : CartSession) (etype : EventType)
    (ts : Nat) :
    (pixelFunnelStep st s etype ts).1.sessions
      = st.sessions.map (fun t =>
          if t.id = (pixelFunnelStep st s etype ts).2.id
          then (pixelFunnelStep st s etype ts).2 else t) := by
  unfold pixelFunnelStep
  by_cases hab : etype = EventType.page_view ∧ s.checkoutStarted = true
      ∧ s.orderPlaced = false ∧ s.checkoutAbandoned = false
  · simp only [if_pos hab, putSession, appendEvents]
  · simp only [if_neg hab, putSession]

/-- The pixel core keeps a converted session id converted throughout the
store. -/
theorem pixelCore_convertedAt (st : Store) (shop : Shop) (vid : String)
    (etype : EventType) (p : PixelPayload) (now : Nat) (i : Nat)
    (href : ∀ t ∈ st.sessions, t.id = i → t.orderPlaced = true)
    (hfresh : freshSessionId st ≠ i) :
    ∀ s' ∈ (pixelCore st shop vid etype p now).1.sessions, s'.id = i →
      s'.orderPlaced = true := by
  cases hfind : findLatest st.sessions
      (fun s => s.shopId == shop.id && s.visitorId == vid) with
  | some s0 =>
      have href1 : ∀ t ∈ (putSession st (pixelSessionRefresh s0 p)).sessions,
          t.id = i → t.orderPlaced = true := by
        intro t ht htid
        exact updated_preserves_convertedAt st.sessions (pixelSessionRefresh s0 p) s0 i
          (findLatest_mem _ _ _ hfind).1 rfl (fun h => h) href t
          (by simpa [putSession] using ht) htid
      cases hres : insertEvent (putSession st (pixelSessionRefresh s0 p))
          { sessionId := (pixelSessionRefresh s0 p).id
            eventType := etype
            productId := p.productId
            productTitle := p.productTitle
            variantId := p.variantId
            variantTitle := p.variantTitle
            variantImage := p.variantImage
            quantity := p.quantity
            price := p.price
            timestamp := p.timestamp.getD now } with
      | error u =>
          intro s' hs' hid
          have hsss : (pixelCore st shop vid etype p now).1.sessions
              = (putSession st (pixelSessionRefresh s0 p)).sessions := by
            simp [pixelCore, hfind, hres]
          rw [hsss] at hs'
          exact href1 s' hs' hid
      | ok st2 =>
          have h2 : st2.sessions = (putSession st (pixelSessionRefresh s0 p)).sessions :=
            insertEvent_ok_sessions _ _ _ hres
          have hsss : (pixelCore st shop vid etype p now).1.sessions
              = (pixelFunnelStep st2 (pixelSessionRefresh s0 p) etype
                  (p.timestamp.getD now)).1.sessions := by
            simp [pixelCore, hfind, hres]
          intro s' hs' hid
          rw [hsss, pixelFunnelStep_result] at hs'
          refine updated_preserves_convertedAt st2.sessions
            (pixelFunnelStep st2 (pixelSessionRefresh s0 p) etype (p.timestamp.getD now)).2
            (pixelSessionRefresh s0 p) i ?_ (pixelFunnelStep_id _ _ _ _)
            (fun h => pixelFunnelStep_orderPlaced _ _ _ _ h) ?_ s' hs' hid
          · rw [h2]
            simp only [putSession, List.mem_map]
            exact ⟨s0, (findLatest_mem _ _ _ hfind).1, by exact if_pos rfl⟩
          · intro t ht htid
            rw [h2] at ht
            exact href1 t ht htid
  | none =>
      have href1 : ∀ t ∈ (addSession st
            (newPixelSession (freshSessionId st) shop.id vid p now)).sessions,
          t.id = i → t.orderPlaced = true := by
        intro t ht htid
        exact appended_preserves_convertedAt st.sessions _ i hfresh href t
          (by simpa [addSession] using ht) htid
      cases hres : insertEvent (addSession st
            (newPixelSession (freshSessionId st) shop.id vid p now))
          { sessionId := (newPixelSession (freshSessionId st) shop.id vid p now).id
            eventType := etype
            productId := p.productId
            productTitle := p.productTitle
            variantId := p.variantId
            variantTitle := p.variantTitle
            variantImage := p.variantImage
            quantity := p.quantity
            price := p.price
            timestamp := p.timestamp.getD now } with
      | error u =>
          intro s' hs' hid
          have hsss : (pixelCore st shop vid etype p now).1.sessions
              = (addSession st
                  (newPixelSession (freshSessionId st) shop.id vid p now)).sessions := by
            simp [pixelCore, hfind, hres]
          rw [hsss] at hs'
          exact href1 s' hs' hid
      | ok st2 =>
          have h2 : st2.sessions
              = (addSession st
                  (newPixelSession (freshSessionId st) shop.id vid p now)).sessions :=
            insertEvent_ok_sessions _ _ _ hres
          have hsss : (pixelCore st shop vid etype p now).1.sessions
              = (pixelFunnelStep st2 (newPixelSession (freshSessionId st) shop.id vid p now)
                  etype (p.timestamp.getD now)).1.sessions := by
            simp [pixelCore, hfind, hres]
          intro s' hs' hid
          rw [hsss, pixelFunnelStep_result] at hs'
          refine updated_preserves_convertedAt st2.sessions
            (pixelFunnelStep st2 (newPixelSession (freshSessionId st) shop.id vid p now)
              etype (p.timestamp.getD now)).2
            (newPixelSession (freshSessionId st) shop.id vid p now) i ?_
            (pixelFunnelStep_id _ _ _ _)
            (fun h => pixelFunnelStep_orderPlaced _ _ _ _ h) ?_ s' hs' hid
          · rw [h2]
            simp [addSession]
          · intro t ht htid
            rw [h2] at ht
            exact href1 t ht htid

/-- A pixel events run keeps a converted session id converted throughout the
store. -/
theorem pixelHandler_convertedAt (st : Store) (p : PixelPayload) (now : Nat) (i : Nat)
    (href : ∀ t ∈ st.sessions, t.id = i → t.orderPlaced = true)
    (hfresh : freshSessionId st ≠ i) :
    ∀ s' ∈ (pixelHandler st p now).1.sessions, s'.id = i → s'.orderPlaced = true := by
  cases hdom : p.shopDomain with
  | none =>
      intro s' hs' hid
      have hsss : (pixelHandler st p now).1.sessions = st.sessions := by
        simp [pixelHandler, hdom]
      rw [hsss] at hs'
      exact href s' hs' hid
  | some dom =>
  cases hvid : p.visitorId with
  | none =>
      intro s' hs' hid
      have hsss : (pixelHandler st p now).1.sessions = st.sessions := by
        simp [pixelHandler, hdom, hvid]
      rw [hsss] at hs'
      exact href s' hs' hid
  | some vid =>
  cases hety : p.eventType with
  | none =>
      intro s' hs' hid
      have hsss : (pixelHandler st p now).1.sessions = st.sessions := by
        simp [pixelHandler, hdom, hvid, hety]
      rw [hsss] at hs'
      exact href s' hs' hid
  | some etype =>
  by_cases hplat : st.platformSessions.contains dom = false
  · have hplat' : dom ∉ st.platformSessions := by simpa using hplat
    intro s' hs' hid
    have hsss : (pixelHandler st p now).1.sessions = st.sessions := by
      simp [pixelHandler, hdom, hvid, hety, hplat']
    rw [hsss] at hs'
    exact href s' hs' hid
  · have hplat' : dom ∈ st.platformSessions := by simpa using hplat
    cases hfs : findShop st dom with
    | some sh =>
        have hred : (pixelHandler st p now) = pixelCore st sh vid etype p now := by
          simp [pixelHandler, hdom, hvid, hety, hplat', hfs]
        rw [hred]
        exact pixelCore_convertedAt st sh vid etype p now i href hfresh
    | none =>
        have hred : (pixelHandler st p now)
            = pixelCore { st with shops := st.shops ++ [Shop.mk ("shop:" ++ dom) dom false] }
                (Shop.mk ("shop:" ++ dom) dom false) vid etype p now := by
          simp [pixelHandler, hdom, hvid, hety, hplat', hfs]
        rw [hred]
        exact pixelCore_convertedAt _ _ vid etype p now i href hfresh

/-- Claim C5: once checkout_completed has been applied to a session (its
orderPlaced flag is set, deriving the Converted funnel state), processing any
further notification — cart webhook, checkout webhook, order webhook or pixel
event — leaves every stored session with that id in funnel state Converted:
no handler ever clears orderPlaced (the orders handler only matches
un-converted sessions, and the pixel abandonment path is guarded by
orderPlaced), and the derived funnel state gives orderPlaced precedence. -/
theorem C5_funnelMonotonic (st : Store) (n : Notification) (s s' : CartSession)
    (hnd : (st.sessions.map CartSession.id).Nodup)
    (hs : s ∈ st.sessions) (hconv : s.orderPlaced = true)
    (hs' : s' ∈ (handleNotification st n).1.sessions) (hid : s'.id = s.id) :
    funnelState s' = Funnel.Converted := by
  have href : ∀ t ∈ st.sessions, t.id = s.id → t.orderPlaced = true := by
    intro t ht htid
    rw [session_eq_of_id_eq st.sessions s t hnd hs ht htid]
    exact hconv
  have hfresh : freshSessionId st ≠ s.id := fun hc => freshSessionId_ne st s hs hc.symm
  have hOP : s'.orderPlaced = true := by
    cases n with
    | carts topic domain p ts =>
        exact cartsHandler_convertedAt st topic domain p ts s.id href hfresh s' hs' hid
    | checkouts domain p ts =>
        exact checkoutsHandler_convertedAt st domain p ts s.id href s' hs' hid
    | orders topic domain p =>
        exact ordersHandler_convertedAt st topic domain p s.id href s' hs' hid
    | pixel p now =>
        exact pixelHandler_convertedAt st p now s.id href hfresh s' hs' hid
  unfold funnelState
  rw [hOP]
  rfl

/-- Fixture converted session for the C5 witness. -/
def c5Session : CartSession :=
  { id := 1, shopId := "S1", visitorId := "v", orderPlaced := true }

/-- Fixture store for the C5 witness. -/
def c5Store : Store :=
  { shops := [{ id := "S1", shopifyDomain := "shop1.test" }], sessions := [c5Session] }

/-- The session record after the checkouts handler touches the converted
session (it sets checkoutStarted but leaves orderPlaced alone). -/
def c5After : CartSession :=
  applyCheckoutSessionUpdates c5Session { cart_token := some "v" }

/-- Witness for C5 at a concrete input: a checkout notification correlating a
converted session leaves it in funnel state Converted. -/
theorem C5_funnelMonotonic_witness : funnelState c5After = Funnel.Converted :=
  C5_funnelMonotonic c5Store
    (Notification.checkouts "shop1.test" { cart_token := some "v" } 9)
    c5Session c5After (by decide) (by decide) rfl (by decide) (by decide)

/- ===== Claim C3 ===== -/

/-- Net contribution of one logged event to the believed quantity at a key. -/
def eventDelta (e : CartEvent) (k : String) : Int :=
  if eventKey e = k then
    (if e.eventType = EventType.cart_add then e.quantity.getD 0
     else if e.eventType = EventType.cart_remove then -(e.quantity.getD 0) else 0)
  else 0

/-- One replay step adds the event's delta at each key. -/
theorem mval_stepEvent (m : List (String × Int)) (e : CartEvent) (k : String) :
    mval (stepEvent m e) k = mval m k + eventDelta e k := by
  unfold stepEvent eventDelta
  by_cases h1 : e.eventType = EventType.cart_add
  · rw [if_pos h1, if_pos h1]
    by_cases hk : eventKey e = k
    · rw [if_pos hk, ← hk]
      unfold mval
      rw [mget_mset_self]
      rfl
    · rw [if_neg hk]
      unfold mval
      rw [mget_mset_ne _ _ _ _ (fun hc => hk hc.symm)]
      omega
  · rw [if_neg h1, if_neg h1]
    by_cases h2 : e.eventType = EventType.cart_remove
    · rw [if_pos h2, if_pos h2]
      by_cases hk : eventKey e = k
      · rw [if_pos hk, ← hk]
        unfold mval
        rw [mget_mset_self]
        simp only [Option.getD_some]
        omega
      · rw [if_neg hk]
        unfold mval
        rw [mget_mset_ne _ _ _ _ (fun hc => hk hc.symm)]
        omega
    · rw [if_neg h2, if_neg h2]
      by_cases hk : eventKey e = k
      · rw [if_pos hk]
        omega
      · rw [if_neg hk]
        omega

/-- Replaying a batch of events adds their summed deltas at each key. -/
theorem mval_foldl (es : List CartEvent) (m : List (String × Int)) (k : String) :
    mval (es.foldl stepEvent m) k
      = mval m k + (es.map (fun e => eventDelta e k)).sum := by
  induction es generalizing m with
  | nil => simp
  | cons e rest ih =>
      rw [List.foldl_cons, ih, mval_stepEvent, List.map_cons, List.sum_cons]
      omega

/-- Believed quantities after appending events to the log. -/
theorem mval_buildCurrentState_append (l₁ l₂ : List CartEvent) (k : String) :
    mval (buildCurrentState (l₁ ++ l₂)) k
      = mval (buildCurrentState l₁) k + (l₂.map (fun e => eventDelta e k)).sum := by
  unfold buildCurrentState
  rw [List.foldl_append]
  exact mval_foldl l₂ _ k

/-- Summing a mapped filter is summing with filtered-out terms zeroed. -/
theorem sum_map_filter {α : Type} (l : List α) (p : α → Bool) (g : α → Int) :
    ((l.filter p).map g).sum = (l.map (fun x => if p x then g x else 0)).sum := by
  induction l with
  | nil => simp
  | cons x rest ih =>
      rw [List.filter_cons]
      by_cases h : p x = true
      · rw [if_pos h]
        simp [h, ih]
      · rw [if_neg h]
        simp only [List.map_cons, List.sum_cons, ih]
        simp [h]

/-- Over an association list with duplicate-free keys, a sum whose terms
vanish off one key reduces to that key's term. -/
theorem sum_keyed_assoc {β : Type} (m : List (String × β)) (k : String)
    (F : String × β → Int) (hnd : (mkeys m).Nodup)
    (hF : ∀ p ∈ m, p.1 ≠ k → F p = 0) :
    (m.map F).sum = match mget m k with | some v => F (k, v) | none => 0 := by
  induction m with
  | nil => simp [mget]
  | cons q rest ih =>
      obtain ⟨k₀, v₀⟩ := q
      simp only [mkeys, List.map_cons, List.nodup_cons] at hnd
      rw [List.map_cons, List.sum_cons]
      by_cases h₀ : k₀ = k
      · subst h₀
        have hrest : (rest.map F).sum = 0 := by
          have : ∀ p ∈ rest, F p = 0 := by
            intro p hp
            apply hF p (List.mem_cons_of_mem _ hp)
            intro hc
            exact hnd.1 (hc ▸ List.mem_map_of_mem Prod.fst hp)
          calc (rest.map F).sum = (rest.map (fun _ => (0 : Int))).sum := by
                rw [List.map_congr_left this]
            _ = 0 := by simp
        unfold mget
        rw [if_pos rfl, hrest]
        simp
      · have hq0 : F (k₀, v₀) = 0 := hF _ (List.mem_cons_self _ _) h₀
        unfold mget
        rw [if_neg h₀, hq0,
          ih (by simpa [mkeys] using hnd.2) (fun p hp => hF p (List.mem_cons_of_mem _ hp))]
        omega

/-- The lastAdd the removal lookup selects for a key carries either no
variant id or that key itself — so the emitted remove event is replayed under
the same key it was computed for. -/
def removalKeyOk (log : List CartEvent) (k : String) : Prop :=
  match lastAddFor log k with
  | none => True
  | some e => e.variantId = none ∨ e.variantId = some k

instance removalKeyOkDecidable (log : List CartEvent) (k : String) :
    Decidable (removalKeyOk log k) := by
  unfold removalKeyOk
  cases lastAddFor log k with
  | none => exact inferInstance
  | some e => exact inferInstance

/-- Key-consistency of a session log: every key with positive believed
quantity has a consistent lastAdd lookup.  With mixed keying (a cart_add
matched by product id but carrying a different variant id) this fails, and
so does idempotence. -/
def removalKeysConsistent (log : List CartEvent) : Prop :=
  ∀ p ∈ buildCurrentState log, 0 < p.2 → removalKeyOk log p.1

instance removalKeysConsistentDecidable (log : List CartEvent) :
    Decidable (removalKeysConsistent log) := by
  unfold removalKeysConsistent
  exact inferInstance

/-- Replay contribution of an emitted add event: its delta at the item's key. -/
theorem eventDelta_additionEvent (sid ts : Nat) (a : Addition) (k : String) :
    eventDelta (additionEvent sid ts a) k
      = if itemKey a.item = k then a.quantity - a.oldQty else 0 := by
  unfold eventDelta additionEvent eventKey itemKey
  simp

/-- Replay contribution of an emitted remove event: minus its delta at the key
the lastAdd fallback yields. -/
theorem eventDelta_removalEvent (sid ts : Nat) (r : Removal) (k : String) :
    eventDelta (removalEvent sid ts r) k
      = if ((r.lastAdd.bind CartEvent.variantId).getD r.key) = k
        then -r.removedQty else 0 := by
  unfold eventDelta removalEvent eventKey
  simp

/-- Summed replay contribution of one run's emitted add events at a key. -/
theorem addsDelta_eq (cur : List (String × Int)) (items : List CartLineItem)
    (sid ts : Nat) (k : String) :
    (((additionsOf cur (buildNewState items)).map (additionEvent sid ts)).map
        (fun e => eventDelta e k)).sum
      = (match mget (buildNewState items) k with
         | some it => if mval cur k < it.quantity then it.quantity - mval cur k else 0
         | none => 0) := by
  obtain ⟨hnd, hwf⟩ := buildNewState_entries items
  rw [List.map_map]
  unfold additionsOf
  rw [sum_map_filter, List.map_map]
  have h2 : List.map
        (((fun x => if (fun a => decide (a.oldQty < a.quantity)) x = true
            then ((fun e => eventDelta e k) ∘ additionEvent sid ts) x else 0))
          ∘ (fun p => Addition.mk p.1 p.2.quantity p.2 (mval cur p.1)))
        (buildNewState items)
      = List.map
        (fun p : String × CartLineItem =>
          if p.1 = k then
            (if mval cur p.1 < p.2.quantity then p.2.quantity - mval cur p.1 else 0)
          else 0)
        (buildNewState items) := by
    apply List.map_congr_left
    intro p hp
    simp only [Function.comp, decide_eq_true_eq, eventDelta_additionEvent]
    rw [hwf p hp]
    by_cases hc : mval cur p.1 < p.2.quantity
    · rw [if_pos hc]
      by_cases hk : p.1 = k
      · rw [if_pos hk, if_pos hk, if_pos hc]
      · rw [if_neg hk, if_neg hk]
    · rw [if_neg hc]
      by_cases hk : p.1 = k
      · rw [if_pos hk, if_neg hc]
      · rw [if_neg hk]
  rw [h2, sum_keyed_assoc _ k _ hnd]
  · cases hm : mget (buildNewState items) k with
    | none => rfl
    | some it => simp
  · intro p hp hpk
    rw [if_neg hpk]

/-- Summed replay contribution of one run's emitted remove events at a key,
under key-consistency of the log. -/
theorem remsDelta_eq (log : List CartEvent) (items : List CartLineItem) (sid ts : Nat)
    (k : String) (hcons : removalKeysConsistent log) :
    (((removalsOf (buildCurrentState log) (buildNewState items) log).map
        (removalEvent sid ts)).map (fun e => eventDelta e k)).sum
      = (match mget (buildCurrentState log) k with
         | some v => if 0 < v ∧ newQtyOf (buildNewState items) k < v
                     then -(v - newQtyOf (buildNewState items) k) else 0
         | none => 0) := by
  have hnd := nodup_mkeys_buildCurrentState log
  rw [List.map_map]
  unfold removalsOf
  rw [List.map_map, sum_map_filter]
  have h2 : List.map
        (fun q : String × Int =>
          if (fun p => decide (0 < p.2)
              && decide (newQtyOf (buildNewState items) p.1 < p.2)) q = true
          then (((fun e => eventDelta e k) ∘ removalEvent sid ts)
            ∘ (fun p => Removal.mk p.1 (p.2 - newQtyOf (buildNewState items) p.1)
                (lastAddFor log p.1))) q
          else 0)
        (buildCurrentState log)
      = List.map
        (fun q : String × Int =>
          if q.1 = k then
            (if 0 < q.2 ∧ newQtyOf (buildNewState items) k < q.2
             then -(q.2 - newQtyOf (buildNewState items) k) else 0)
          else 0)
        (buildCurrentState log) := by
    apply List.map_congr_left
    intro q hq
    simp only [Function.comp, Bool.and_eq_true, decide_eq_true_eq, eventDelta_removalEvent]
    by_cases hc : 0 < q.2 ∧ newQtyOf (buildNewState items) q.1 < q.2
    · rw [if_pos hc]
      have hok := hcons q hq hc.1
      have hkey : ((lastAddFor log q.1).bind CartEvent.variantId).getD q.1 = q.1 := by
        unfold removalKeyOk at hok
        cases hla : lastAddFor log q.1 with
        | none => rfl
        | some e =>
            rw [hla] at hok
            rcases hok with hh | hh
            · simp [hh]
            · simp [hh]
      rw [hkey]
      by_cases hk : q.1 = k
      · rw [if_pos hk, if_pos hk, if_pos (by rw [← hk]; exact hc)]
        rw [hk]
      · rw [if_neg hk, if_neg hk]
    · rw [if_neg hc]
      by_cases hk : q.1 = k
      · rw [if_pos hk, if_neg (by rw [← hk]; exact hc)]
      · rw [if_neg hk]
  rw [h2, sum_keyed_assoc _ k _ hnd]
  · cases hm : mget (buildCurrentState log) k with
    | none => rfl
    | some v => simp
  · intro p hp hpk
    rw [if_neg hpk]

/-- Believed quantity at each key after one diffing run, under
key-consistency: snapshot keys move toward the snapshot quantity, other
positive keys drop to zero. -/
theorem mval_after_diff (log : List CartEvent) (items : List CartLineItem)
    (sid ts : Nat) (k : String) (hcons : removalKeysConsistent log) :
    mval (buildCurrentState (log ++ diffEvents sid ts log items)) k
      = mval (buildCurrentState log) k
        + (match mget (buildNewState items) k with
           | some it => if mval (buildCurrentState log) k < it.quantity
                        then it.quantity - mval (buildCurrentState log) k else 0
           | none => 0)
        + (match mget (buildCurrentState log) k with
           | some v => if 0 < v ∧ newQtyOf (buildNewState items) k < v
                       then -(v - newQtyOf (buildNewState items) k) else 0
           | none => 0) := by
  rw [mval_buildCurrentState_append]
  unfold diffEvents
  rw [List.map_append, List.sum_append, addsDelta_eq, remsDelta_eq log items sid ts k hcons]
  omega

/-- Diffing the same snapshot again after one run emits nothing, provided the
log is key-consistent. -/
theorem diffEvents_idempotent (sid ts1 ts2 : Nat) (log : List CartEvent)
    (items : List CartLineItem) (hcons : removalKeysConsistent log) :
    diffEvents sid ts2 (log ++ diffEvents sid ts1 log items) items = [] := by
  obtain ⟨hndNew, hwf⟩ := buildNewState_entries items
  have hadds : additionsOf (buildCurrentState (log ++ diffEvents sid ts1 log items))
      (buildNewState items) = [] := by
    unfold additionsOf
    rw [List.filter_eq_nil_iff]
    intro a ha
    obtain ⟨p, hp, rfl⟩ := List.mem_map.mp ha
    simp only [decide_eq_true_eq]
    have hm : mget (buildNewState items) p.1 = some p.2 :=
      mget_of_mem_nodup _ _ _ hndNew (by rw [← Prod.mk.eta (p := p)] at hp; exact hp)
    have hnq : newQtyOf (buildNewState items) p.1 = p.2.quantity := by
      unfold newQtyOf
      rw [hm]
      rfl
    have h2 := mval_after_diff log items sid ts1 p.1 hcons
    rw [hm, hnq] at h2
    cases hcur : mget (buildCurrentState log) p.1 with
    | none =>
        have hb : mval (buildCurrentState log) p.1 = 0 := by
          unfold mval
          rw [hcur]
          rfl
        rw [hcur, hb] at h2
        have h3 : mval (buildCurrentState (log ++ diffEvents sid ts1 log items)) p.1
            = 0 + (if (0 : Int) < p.2.quantity then p.2.quantity - 0 else 0) + 0 := h2
        split_ifs at h3 <;> omega
    | some v =>
        have hb : mval (buildCurrentState log) p.1 = v := by
          unfold mval
          rw [hcur]
          rfl
        rw [hcur, hb] at h2
        have h3 : mval (buildCurrentState (log ++ diffEvents sid ts1 log items)) p.1
            = v + (if v < p.2.quantity then p.2.quantity - v else 0)
              + (if 0 < v ∧ p.2.quantity < v then -(v - p.2.quantity) else 0) := h2
        split_ifs at h3 <;> omega
  have hrems : removalsOf (buildCurrentState (log ++ diffEvents sid ts1 log items))
      (buildNewState items) (log ++ diffEvents sid ts1 log items) = [] := by
    unfold removalsOf
    have hfil : (buildCurrentState (log ++ diffEvents sid ts1 log items)).filter
        (fun p => decide (0 < p.2)
          && decide (newQtyOf (buildNewState items) p.1 < p.2)) = [] := by
      rw [List.filter_eq_nil_iff]
      intro q hq
      simp only [Bool.and_eq_true, decide_eq_true_eq, not_and]
      intro hpos
      have hv : mget (buildCurrentState (log ++ diffEvents sid ts1 log items)) q.1
          = some q.2 :=
        mget_of_mem_nodup _ _ _ (nodup_mkeys_buildCurrentState _)
          (by rw [← Prod.mk.eta (p := q)] at hq; exact hq)
      have hvv : mval (buildCurrentState (log ++ diffEvents sid ts1 log items)) q.1
          = q.2 := by
        unfold mval
        rw [hv]
        rfl
      have h2 := mval_after_diff log items sid ts1 q.1 hcons
      rw [hvv] at h2
      cases hnewm : mget (buildNewState items) q.1 with
      | some it =>
          have hnq : newQtyOf (buildNewState items) q.1 = it.quantity := by
            unfold newQtyOf
            rw [hnewm]
            rfl
          rw [hnewm, hnq] at h2
          rw [hnq]
          cases hcur : mget (buildCurrentState log) q.1 with
          | none =>
              have hb : mval (buildCurrentState log) q.1 = 0 := by
                unfold mval
                rw [hcur]
                rfl
              rw [hcur, hb] at h2
              have h3 : q.2 = 0 + (if (0 : Int) < it.quantity then it.quantity - 0 else 0) + 0 :=
                h2
              split_ifs at h3 <;> omega
          | some v =>
              have hb : mval (buildCurrentState log) q.1 = v := by
                unfold mval
                rw [hcur]
                rfl
              rw [hcur, hb] at h2
              have h3 : q.2 = v + (if v < it.quantity then it.quantity - v else 0)
                  + (if 0 < v ∧ it.quantity < v then -(v - it.quantity) else 0) := h2
              split_ifs at h3 <;> omega
      | none =>
          have hnq : newQtyOf (buildNewState items) q.1 = 0 := by
            unfold newQtyOf
            rw [hnewm]
            rfl
          rw [hnewm, hnq] at h2
          rw [hnq]
          cases hcur : mget (buildCurrentState log) q.1 with
          | none =>
              have hb : mval (buildCurrentState log) q.1 = 0 := by
                unfold mval
                rw [hcur]
                rfl
              rw [hcur, hb] at h2
              have h3 : q.2 = 0 + 0 + 0 := h2
              omega
          | some v =>
              have hb : mval (buildCurrentState log) q.1 = v := by
                unfold mval
                rw [hcur]
                rfl
              rw [hcur, hb] at h2
              have h3 : q.2 = v + 0 + (if 0 < v ∧ (0 : Int) < v then -(v - 0) else 0) := h2
              split_ifs at h3 <;> omega
    rw [hfil]
    rfl
  have hsplit : diffEvents sid ts2 (log ++ diffEvents sid ts1 log items) items
      = (additionsOf (buildCurrentState (log ++ diffEvents sid ts1 log items))
          (buildNewState items)).map (additionEvent sid ts2)
        ++ (removalsOf (buildCurrentState (log ++ diffEvents sid ts1 log items))
            (buildNewState items) (log ++ diffEvents sid ts1 log items)).map
              (removalEvent sid ts2) := rfl
  rw [hsplit, hadds, hrems]
  rfl

/-- Fixture session for the C3 counterexample. -/
def c3Session : CartSession :=
  { id := 1, shopId := "S1", visitorId := "v3" }

/-- Fixture log for the C3 counterexample: two cart_adds of the same product,
one carrying a variant id and one not, so the believed state holds keys "W"
and "P" while the removal lookup for "P" selects the add carrying "W". -/
def c3Log : List CartEvent :=
  [CartEvent.mk 1 .cart_add (some "P") none (some "W") none none (some 1) (some 10) 1,
   CartEvent.mk 1 .cart_add (some "P") none none none none (some 1) (some 10) 2]

/-- Fixture snapshot for the C3 counterexample. -/
def c3Items : List CartLineItem :=
  [{ product_id := some "P", variant_id := some "W", quantity := 1, price := some 10 }]

/-- Claim C3, counterexample: processing the identical cart.updated snapshot a
second time emits two further events (a cart_add and a cart_remove) instead
of zero, because the first run logged its remove under the lastAdd's variant
key "W" rather than the believed key "P" it was computed for. -/
theorem C3_idempotence_counterexample :
    ((cartsUpdateBranch (cartsUpdateBranch c3Session c3Log c3Items none 5).1
        (cartsUpdateBranch c3Session c3Log c3Items none 5).2.1 c3Items none 6).2.2.length
      = 2)
    ∧ ((cartsUpdateBranch (cartsUpdateBranch c3Session c3Log c3Items none 5).1
        (cartsUpdateBranch c3Session c3Log c3Items none 5).2.1 c3Items none 6).2.2 = []
        → False) :=
  ⟨by decide, by decide⟩

/-- Claim C3, amended: processing the identical cart.updated notification
twice produces the same final session state and event log as processing it
once, and the second processing emits zero new cart events — provided the
session's event log is key-consistent: every key with positive believed
quantity resolves its removal lookup to a cart_add carrying that same key (or
none).  Without that proviso the second processing can emit events, as the
counterexample shows. -/
theorem C3_idempotence_amended (s : CartSession) (log : List CartEvent)
    (items : List CartLineItem) (cid : Option String) (ts1 ts2 : Nat)
    (hcons : removalKeysConsistent log) :
    (cartsUpdateBranch (cartsUpdateBranch s log items cid ts1).1
        (cartsUpdateBranch s log items cid ts1).2.1 items cid ts2).2.2 = []
    ∧ (cartsUpdateBranch (cartsUpdateBranch s log items cid ts1).1
        (cartsUpdateBranch s log items cid ts1).2.1 items cid ts2).1
      = (cartsUpdateBranch s log items cid ts1).1
    ∧ (cartsUpdateBranch (cartsUpdateBranch s log items cid ts1).1
        (cartsUpdateBranch s log items cid ts1).2.1 items cid ts2).2.1
      = (cartsUpdateBranch s log items cid ts1).2.1 := by
  have hemit : diffEvents (cartsSessionUpdate s items cid).id ts2
      (log ++ diffEvents s.id ts1 log items) items = [] :=
    diffEvents_idempotent s.id ts1 ts2 log items hcons
  refine ⟨?_, ?_, ?_⟩
  · exact hemit
  · show cartsSessionUpdate (cartsSessionUpdate s items cid) items cid
      = cartsSessionUpdate s items cid
    unfold cartsSessionUpdate
    cases cid <;> simp [Option.orElse]
  · show (log ++ diffEvents s.id ts1 log items)
        ++ diffEvents (cartsSessionUpdate s items cid).id ts2
            (log ++ diffEvents s.id ts1 log items) items
      = log ++ diffEvents s.id ts1 log items
    rw [hemit]
    simp

/-- Fixture for the C3 witness: a key-consistent log (one add carrying the
variant id) and the same-product snapshot. -/
def c3wLog : List CartEvent :=
  [CartEvent.mk 2 .cart_add (some "P") none (some "A") none none (some 2) (some 10) 1]

/-- Fixture snapshot for the C3 witness. -/
def c3wItems : List CartLineItem :=
  [{ product_id := some "P", variant_id := some "A", quantity := 1, price := some 10 }]

/-- Fixture session for the C3 witness. -/
def c3wSession : CartSession :=
  { id := 2, shopId := "S1", visitorId := "w3" }

/-- Witness for the amended C3 at a concrete key-consistent input. -/
theorem C3_idempotence_amended_witness :
    (cartsUpdateBranch (cartsUpdateBranch c3wSession c3wLog c3wItems none 5).1
        (cartsUpdateBranch c3wSession c3wLog c3wItems none 5).2.1 c3wItems none 6).2.2 = []
    ∧ (cartsUpdateBranch (cartsUpdateBranch c3wSession c3wLog c3wItems none 5).1
        (cartsUpdateBranch c3wSession c3wLog c3wItems none 5).2.1 c3wItems none 6).1
      = (cartsUpdateBranch c3wSession c3wLog c3wItems none 5).1
    ∧ (cartsUpdateBranch (cartsUpdateBranch c3wSession c3wLog c3wItems none 5).1
        (cartsUpdateBranch c3wSession c3wLog c3wItems none 5).2.1 c3wItems none 6).2.1
      = (cartsUpdateBranch c3wSession c3wLog c3wItems none 5).2.1 :=
  C3_idempotence_amended c3wSession c3wLog c3wItems none 5 6 (by decide)

end Cartlens
